import Mathlib

/-
Verification of the SUMO emergency-vehicle traffic controller
(`traffic_manager.py`).  The controller's per-tick logic is embedded as
pure Lean functions over explicit state:

* the preemption table `preempted_lights` (a Python dict keyed by traffic
  light id) is an association list `List (String × PreemptionInfo)`;
* the stuck table `stuck_vehicles` is `List (String × ℚ)`;
* the configured-emergency-vehicle set is a `List String`;
* simulation queries (positions, programs, controlled links, ...) are
  passed in explicitly as environment records;
* floating point quantities (times, speeds, positions) are embedded as
  rationals, with Euclidean-distance comparisons `dist > t` expressed as
  the equivalent `dist² > t²` (both sides nonnegative) to stay exact.

Emitted commands (signal-state overrides, program restores, slow-down /
lane-change orders) and log events are returned as explicit lists so that
theorems can talk about what the controller did to the outside world.
-/

namespace SumoTM

/-! ## Constants from `TrafficManager.__init__` -/

/-- Emergency vehicle types (`self.emergency_types`). -/
def emergencyTypes : List String := [("ambulance"), ("firetruck"), ("police")]

/-- Priority ranks (`self.emergency_priorities`, default 99 via `.get`):
lower number = higher priority. -/
def emergencyPriority (t : String) : Nat :=
  if t = ("ambulance") then 1
  else if t = ("firetruck") then 2
  else if t = ("police") then 3
  else 99

/-- Grace duration kept after the holder passes (`self.green_extension`). -/
def greenExtension : ℚ := 5

/-- Detection distance threshold (`self.emergency_detection_distance`). -/
def emergencyDetectionDistance : ℚ := 50

/-- Minimum halted-queue length that triggers preemption
(`self.min_queue_for_preemption`). -/
def minQueueForPreemption : Nat := 8

/-! ## Association-list model of Python dicts -/

/-- Lookup in a dict modelled as an association list. -/
def lookupKey {β : Type} : List (String × β) → String → Option β
  | [], _ => none
  | (k, v) :: rest, t => if k = t then some v else lookupKey rest t

/-- Insert-or-overwrite (`d[k] = v` on a Python dict). -/
def setKey {β : Type} : List (String × β) → String → β → List (String × β)
  | [], t, v => [(t, v)]
  | (k, w) :: rest, t, v =>
      if k = t then (t, v) :: rest else (k, w) :: setKey rest t v

/-- Deletion (`del d[k]` on a Python dict). -/
def eraseKey {β : Type} : List (String × β) → String → List (String × β)
  | [], _ => []
  | (k, w) :: rest, t => if k = t then rest else (k, w) :: eraseKey rest t

/-- Well-formedness of the dict model: keys are pairwise distinct,
as they are in a Python dict. -/
def keysNodup {β : Type} (l : List (String × β)) : Prop :=
  (l.map Prod.fst).Nodup

theorem setKey_cons_eq {β : Type} (a : String) (w v : β) (rest : List (String × β)) :
    setKey ((a, w) :: rest) a v = (a, v) :: rest := by
  simp [setKey]

theorem setKey_cons_ne {β : Type} (a k : String) (w v : β) (rest : List (String × β))
    (h : ¬ a = k) : setKey ((a, w) :: rest) k v = (a, w) :: setKey rest k v := by
  simp [setKey, h]

theorem lookupKey_setKey_self {β : Type} (l : List (String × β)) (k : String) (v : β) :
    lookupKey (setKey l k v) k = some v := by
  induction l with
  | nil => simp [setKey, lookupKey]
  | cons p rest ih =>
      obtain ⟨a, w⟩ := p
      by_cases h : a = k
      · simp [setKey, h, lookupKey]
      · simp [setKey, h, lookupKey, ih]

theorem lookupKey_setKey_ne {β : Type} (l : List (String × β)) (k t : String) (v : β)
    (h : t ≠ k) : lookupKey (setKey l k v) t = lookupKey l t := by
  have hkt : ¬ k = t := fun hh => h hh.symm
  induction l with
  | nil => simp [setKey, lookupKey, hkt]
  | cons p rest ih =>
      obtain ⟨a, w⟩ := p
      by_cases ha : a = k
      · subst ha
        simp [setKey, lookupKey, hkt]
      · rw [setKey_cons_ne a k w v rest ha, lookupKey, lookupKey]
        by_cases hat : a = t
        · rw [if_pos hat, if_pos hat]
        · rw [if_neg hat, if_neg hat, ih]

theorem mem_keys_setKey {β : Type} (l : List (String × β)) (k t : String) (v : β)
    (h : t ∈ (setKey l k v).map Prod.fst) : t ∈ l.map Prod.fst ∨ t = k := by
  induction l with
  | nil =>
      exact Or.inr (by simpa [setKey] using h)
  | cons p rest ih =>
      obtain ⟨a, w⟩ := p
      by_cases ha : a = k
      · subst ha
        have h2 : t = a ∨ t ∈ rest.map Prod.fst := by simpa [setKey] using h
        rcases h2 with h1 | h1
        · exact Or.inr h1
        · exact Or.inl (by simp [h1])
      · have h2 : t = a ∨ t ∈ (setKey rest k v).map Prod.fst := by
          simpa [setKey, ha] using h
        rcases h2 with h1 | h1
        · exact Or.inl (by simp [h1])
        · rcases ih h1 with h3 | h3
          · exact Or.inl (by simp [h3])
          · exact Or.inr h3

theorem keysNodup_setKey {β : Type} (l : List (String × β)) (k : String) (v : β)
    (h : keysNodup l) : keysNodup (setKey l k v) := by
  induction l with
  | nil => simp [setKey, keysNodup]
  | cons p rest ih =>
      obtain ⟨a, w⟩ := p
      simp only [keysNodup, List.map_cons, List.nodup_cons] at h
      by_cases ha : a = k
      · subst ha
        simp only [keysNodup, setKey_cons_eq, List.map_cons, List.nodup_cons]
        exact ⟨h.1, h.2⟩
      · simp only [keysNodup, setKey_cons_ne a k w v rest ha, List.map_cons, List.nodup_cons]
        exact ⟨fun hmem => (mem_keys_setKey rest k a v hmem).elim h.1 ha, ih h.2⟩

theorem lookupKey_notMem {β : Type} (l : List (String × β)) (k : String)
    (h : k ∉ l.map Prod.fst) : lookupKey l k = none := by
  induction l with
  | nil => rfl
  | cons p rest ih =>
      obtain ⟨a, w⟩ := p
      have hak : ¬ a = k := fun hak => h (by simp [hak])
      rw [lookupKey, if_neg hak]
      exact ih (fun hm => h (by simp [hm]))

theorem lookupKey_eraseKey_self {β : Type} (l : List (String × β)) (k : String)
    (h : keysNodup l) : lookupKey (eraseKey l k) k = none := by
  induction l with
  | nil => rfl
  | cons p rest ih =>
      obtain ⟨a, w⟩ := p
      simp only [keysNodup, List.map_cons, List.nodup_cons] at h
      by_cases ha : a = k
      · subst ha
        rw [eraseKey, if_pos rfl]
        exact lookupKey_notMem rest a h.1
      · rw [eraseKey, if_neg ha, lookupKey, if_neg ha]
        exact ih h.2

theorem lookupKey_of_mem {β : Type} (l : List (String × β)) (k : String) (v : β)
    (hnd : keysNodup l) (hmem : (k, v) ∈ l) : lookupKey l k = some v := by
  induction l with
  | nil => cases hmem
  | cons p rest ih =>
      obtain ⟨a, w⟩ := p
      simp only [keysNodup, List.map_cons, List.nodup_cons] at hnd
      rcases List.mem_cons.mp hmem with h1 | h1
      · obtain ⟨hk, hv⟩ := (Prod.mk.injEq k v a w).mp h1
        rw [lookupKey, if_pos hk.symm, hv]
      · have hak : ¬ a = k := by
          intro hak
          subst hak
          exact hnd.1 (List.mem_map_of_mem Prod.fst h1)
        rw [lookupKey, if_neg hak]
        exact ih hnd.2 h1

theorem mem_of_lookupKey {β : Type} (l : List (String × β)) (k : String) (v : β)
    (h : lookupKey l k = some v) : (k, v) ∈ l := by
  induction l with
  | nil => exact absurd h (by simp [lookupKey])
  | cons p rest ih =>
      obtain ⟨a, w⟩ := p
      rw [lookupKey] at h
      by_cases ha : a = k
      · rw [if_pos ha] at h
        injection h with hv
        subst ha
        subst hv
        exact List.mem_cons_self _ _
      · rw [if_neg ha] at h
        exact List.mem_cons_of_mem _ (ih h)

/-! ## Preemption data model (`self.preempted_lights` entries) -/

/-- One entry of `self.preempted_lights` as created in `preempt_signal`. -/
structure PreemptionInfo where
  program : String
  phase : Nat
  vehicle_id : String
  priority : Nat
  time : ℚ
  passed : Bool
deriving Repr, DecidableEq

/-- A qualifying emergency-vehicle candidate as appended to
`emergency_by_intersection[tls_id]` in `update_traffic_signals`. -/
structure Candidate where
  vid : String
  vtype : String
  priority : Nat
  edge : String
  distance : ℚ
deriving Repr, DecidableEq

/-- One controlled link as returned by `getControlledLinks`; only the two
fields the code reads are kept: `link_info_tuple[3]` (incoming edge) and
`link_info_tuple[6]` (signal index within the state string). -/
structure Link where
  incoming_edge : String
  signal_index : Nat
deriving Repr, DecidableEq

/-- Intersection-side data read by `preempt_signal` from the simulation:
current program id, current phase, the controlled-link table (grouped, as
`getControlledLinks` returns a list of link lists), and the complete
program logic (each program is the list of its phases' state strings). -/
structure SimSignalEnv where
  program : String
  phase : Nat
  controlled_links : List (List Link)
  programs : List (List String)
deriving Repr, DecidableEq

/-- Number of signals, `len(program_logic[0].phases[0].state)`; `none` when
`not program_logic or not program_logic[0].phases`. -/
def numSignals (env : SimSignalEnv) : Option Nat :=
  match env.programs with
  | [] => none
  | phases :: _ =>
      match phases with
      | [] => none
      | st :: _ => some st.length

/-- Body of the inner loop over `controlled_links`: on an incoming-edge
match with an in-bounds signal index, set that index to 'G' and record
that a signal index was found. -/
def applyLink (edge : String) (n : Nat) (acc : List Char × Bool) (l : Link) :
    List Char × Bool :=
  if l.incoming_edge = edge then
    if l.signal_index < n then (acc.1.set l.signal_index 'G', true) else acc
  else acc

/-- Loop over one signal group's links. -/
def applyGroup (edge : String) (n : Nat) (acc : List Char × Bool) (g : List Link) :
    List Char × Bool :=
  g.foldl (applyLink edge n) acc

/-- The state-string construction of `preempt_signal`: start from
`list('r' * num_signals)`, walk all controlled links, and return the final
character list together with whether `found_signal_index` was set. -/
def resolveState (edge : String) (n : Nat) (links : List (List Link)) :
    List Char × Bool :=
  links.foldl (applyGroup edge n) (List.replicate n 'r', false)

/-- Log events of `preempt_signal` (the per-link out-of-bounds warning is
log-only and not tracked). -/
inductive Ev where
  | preemptCreated (tls vid : String)
  | preemptUpgraded (tls vid : String)
  | noControlledLinks (tls : String)
  | noProgramLogic (tls : String)
  | configMismatch (tls edge : String)
  | settingState (tls state : String)
deriving Repr, DecidableEq

/-- Record-management stage of `preempt_signal` (the four-way branch on
`self.preempted_lights`): returns the updated table and events, or `none`
for the early `return` when a lower-priority vehicle arrives while the
intersection is already preempted. -/
def preemptRecordStep (table : List (String × PreemptionInfo)) (tls : String)
    (veh : Candidate) (env : SimSignalEnv) (now : ℚ) :
    Option (List (String × PreemptionInfo) × List Ev) :=
  match lookupKey table tls with
  | none =>
      some (setKey table tls
        { program := env.program
          phase := env.phase
          vehicle_id := veh.vid
          priority := veh.priority
          time := now
          passed := false },
        [Ev.preemptCreated tls veh.vid])
  | some old =>
      if veh.priority < old.priority then
        some (setKey table tls
          { old with
              vehicle_id := veh.vid
              priority := veh.priority
              time := now
              passed := false },
          [Ev.preemptUpgraded tls veh.vid])
      else if veh.vid = old.vehicle_id then
        some (setKey table tls { old with time := now }, [])
      else none

/-- Result of a `preempt_signal` call: the table afterwards, the state
string passed to `setRedYellowGreenState` (if any), and the log events. -/
structure PreemptResult where
  table : List (String × PreemptionInfo)
  setState : Option String
  events : List Ev
deriving Repr, DecidableEq

/-- Edge-resolution and state-setting stage of `preempt_signal` (the
"Refined Logic" block after the record management): it reads only the
intersection's link/program data and the candidate, never the preemption
table.  Returns the state string to apply (if any) and the log events. -/
def signalStage (tls : String) (veh : Candidate) (env : SimSignalEnv) :
    Option String × List Ev :=
  if env.controlled_links = [] then (none, [Ev.noControlledLinks tls])
  else
    match numSignals env with
    | none => (none, [Ev.noProgramLogic tls])
    | some n =>
        let res := resolveState veh.edge n env.controlled_links
        if res.2 then
          (some (String.mk res.1), [Ev.settingState tls (String.mk res.1)])
        else (none, [Ev.configMismatch tls veh.edge])

/-- The `preempt_signal` method (success path; a TraCI failure while
applying the override instead deletes the record, which no claim here
depends on).  Note the record is created/updated before the approach edge
is resolved, and every early `return` after that point keeps the updated
table. -/
def preempt_signal (table : List (String × PreemptionInfo)) (tls : String)
    (veh : Candidate) (env : SimSignalEnv) (now : ℚ) : PreemptResult :=
  match preemptRecordStep table tls veh env now with
  | none => ⟨table, none, []⟩
  | some (table2, evs) =>
      ⟨table2, (signalStage tls veh env).1, evs ++ (signalStage tls veh env).2⟩

/-! ## Candidate aggregation (`update_traffic_signals`, lines 401-408) -/

/-- Comparison key of `vehicles.sort(key=lambda x: x['priority'])`. -/
def candLE (a b : Candidate) : Bool :=
  decide (a.priority ≤ b.priority)

/-- Sort the per-intersection candidate list by priority (Python's stable
`list.sort`) and take `vehicles[0]`. -/
def selectCandidate (vehicles : List Candidate) : Option Candidate :=
  (vehicles.mergeSort candLE).head?

/-- Per-intersection body of the aggregation loop: preempt for the
highest-priority (minimum priority number) vehicle queued at this light. -/
def processIntersection (table : List (String × PreemptionInfo)) (tls : String)
    (vehicles : List Candidate) (env : SimSignalEnv) (now : ℚ) : PreemptResult :=
  match selectCandidate vehicles with
  | none => ⟨table, none, []⟩
  | some c => preempt_signal table tls c env now

/-! ## Release pass (`check_signal_release`) -/

/-- Simulation data read by `check_signal_release`: current time, the
current vehicle id list, and position queries for vehicles and junctions. -/
structure ReleaseEnv where
  now : ℚ
  present : List String
  vehPos : String → ℚ × ℚ
  tlsPos : String → ℚ × ℚ

/-- Squared Euclidean distance; the code compares
`math.sqrt(dx**2 + dy**2) > thr` which for `thr ≥ 0` is equivalent to the
exact rational comparison `dx**2 + dy**2 > thr**2` used here. -/
def dist2 (a b : ℚ × ℚ) : ℚ :=
  (a.1 - b.1) ^ 2 + (a.2 - b.2) ^ 2

/-- Passed-distance threshold `self.emergency_detection_distance * 1.1`. -/
def passedThreshold : ℚ :=
  emergencyDetectionDistance * (11 / 10)

/-- First loop body of `check_signal_release`: flag the record `passed`
(with `time` reset to now) when the holder has left the simulation, or is
still present and farther than the threshold from the junction. -/
def updatePassed (env : ReleaseEnv) (tls : String) (info : PreemptionInfo) :
    PreemptionInfo :=
  if info.vehicle_id ∈ env.present then
    if info.passed then info
    else if dist2 (env.vehPos info.vehicle_id) (env.tlsPos tls) > passedThreshold ^ 2 then
      { info with passed := true, time := env.now }
    else info
  else
    if info.passed then info
    else { info with passed := true, time := env.now }

/-- Grace-period test `info['passed'] and (current_time - info['time']) >=
grace_period` with `grace_period = 5`. -/
def releaseDue (env : ReleaseEnv) (p : String × PreemptionInfo) : Bool :=
  p.2.passed && decide (env.now - p.2.time ≥ 5)

/-- Commands a release (or a preemption) may send to a traffic light. -/
inductive TlsCommand where
  | setProgram (tls prog : String)
  | setPhase (tls : String) (phase : Nat)
  | setStateString (tls state : String)
deriving Repr, DecidableEq

/-- First pass of `check_signal_release`: the in-place `passed`/`time`
update applied to every record. -/
def releaseUpdated (table : List (String × PreemptionInfo)) (env : ReleaseEnv) :
    List (String × PreemptionInfo) :=
  table.map (fun p => (p.1, updatePassed env p.1 p.2))

/-- The `check_signal_release` method: update `passed`/`time` on every
record, then release (emit `setProgram` with the saved program id and
delete the record) each record whose grace period has elapsed. -/
def check_signal_release (table : List (String × PreemptionInfo))
    (env : ReleaseEnv) : List (String × PreemptionInfo) × List TlsCommand :=
  ((releaseUpdated table env).filter (fun p => !(releaseDue env p)),
   ((releaseUpdated table env).filter (fun p => releaseDue env p)).map
     (fun p => TlsCommand.setProgram p.1 p.2.program))

/-- Phase-field scrubbing used to state that the saved phase is never read:
two tables that differ only in saved phases drive identical behaviour. -/
def erasePhase (table : List (String × PreemptionInfo)) :
    List (String × PreemptionInfo) :=
  table.map (fun p => (p.1, { p.2 with phase := 0 }))

/-! ## PathClearer (`clear_path`) -/

/-- Vehicle data read by `clear_path` for the emergency vehicle and for
each candidate. -/
structure PcVehicle where
  vid : String
  vtype : String
  pos : ℚ × ℚ
  laneId : String
  edgeId : String
  lanePos : ℚ
deriving Repr, DecidableEq

/-- Commands `clear_path` can issue to a candidate vehicle. -/
inductive VehCmd where
  | slowDown (target dur : ℚ)
  | changeLane (lane : Nat)
deriving Repr, DecidableEq

/-- Simulation data `clear_path` queries besides the vehicles themselves:
lane counts per edge, and whether a `changeLane` command is accepted
(per-candidate failures are swallowed by the inner try/except). -/
structure ClearEnv where
  vehicles : List PcVehicle
  laneCount : String → Nat
  changeOk : String → Nat → Bool

/-- Check whether an edge id names a junction-internal edge
(`edge_id.startswith(':')`). -/
def isInternalEdge (e : String) : Bool :=
  match e.data with
  | [] => false
  | c :: _ => c == ':'

/-- Parse a lane index from the trailing component of a lane id,
`int(lane_id.split('_')[-1])`; `none` models the swallowed `ValueError`. -/
def parseLaneIndex (laneId : String) : Option Nat :=
  (laneId.splitOn ("_")).getLast?.bind String.toNat?

/-- Regular-segment per-candidate body of `clear_path`: skip self,
emergency classes, other edges and unparsable lanes; for a blocking
candidate, attempt an immediate lane change to the first lane that is not
the emergency vehicle's own and whose change is accepted, then always
issue the near-stop `slowDown(0.5, 1.0)`. -/
def clearCmdsFor (em : PcVehicle) (radius : ℚ) (env : ClearEnv) (emIdx : Nat)
    (v : PcVehicle) : List (PcVehicle × VehCmd) :=
  if v.vid = em.vid ∨ v.vtype ∈ emergencyTypes then []
  else if v.edgeId ≠ em.edgeId then []
  else
    match parseLaneIndex v.laneId with
    | none => []
    | some _ =>
        if (v.laneId = em.laneId ∧ v.lanePos > em.lanePos ∧
              v.lanePos - em.lanePos < radius) ∨
           (v.laneId ≠ em.laneId ∧ |v.lanePos - em.lanePos| < radius) then
          (if env.laneCount em.edgeId > 1 then
            match (List.range (env.laneCount em.edgeId)).find?
                (fun t => !(t == emIdx) && env.changeOk v.vid t) with
            | some t => [(v, VehCmd.changeLane t)]
            | none => []
          else []) ++ [(v, VehCmd.slowDown (1 / 2) 1)]
        else []

/-- The `clear_path` method, returning the commands issued, paired with
the candidate they target.  Inside a junction every non-emergency vehicle
within the radius is slowed; on a regular segment the lane-aware
per-candidate logic of `clearCmdsFor` runs over the vehicles of the
emergency vehicle's edge. -/
def clear_path (em : PcVehicle) (radius : ℚ) (env : ClearEnv) :
    List (PcVehicle × VehCmd) :=
  if isInternalEdge em.edgeId then
    env.vehicles.filterMap (fun v =>
      if v.vid = em.vid ∨ v.vtype ∈ emergencyTypes then none
      else if dist2 em.pos v.pos < radius ^ 2 then
        some (v, VehCmd.slowDown (1 / 2) 1)
      else none)
  else
    match parseLaneIndex em.laneId with
    | none => []
    | some emIdx =>
        ((env.vehicles.filter (fun v => v.edgeId == em.edgeId)).map
          (clearCmdsFor em radius env emIdx)).flatten

/-! ## StuckVehicleRecovery (`check_stuck_vehicles`) -/

/-- Failure kinds surfaced by the simulation interface; the code
distinguishes the unknown-entity TraCI error by string matching. -/
inductive SimError where
  | unknownVehicle
  | traciOther
  | otherError
deriving Repr, DecidableEq

/-- Per-vehicle data read in the `check_stuck_vehicles` loop; `err` is a
failure raised by one of the TraCI queries for that vehicle. -/
structure StuckVeh where
  vid : String
  vtype : String
  speed : ℚ
  waiting : ℚ
  err : Option SimError
deriving Repr, DecidableEq

/-- Body of the per-vehicle loop in `check_stuck_vehicles`: emergency
vehicles are skipped; a non-emergency vehicle with speed < 0.1 and
waiting time > 120 whose last handling (0 if absent) is at least 60
time-units old is rerouted and its handling time recorded.  A TraCI error
drops the vehicle's stuck entry; any other error only logs.  The returned
flag says whether `rerouteTraveltime` was issued. -/
def stuckStep (stuck : List (String × ℚ)) (now : ℚ) (v : StuckVeh) :
    List (String × ℚ) × Bool :=
  match v.err with
  | some SimError.otherError => (stuck, false)
  | some _ => (eraseKey stuck v.vid, false)
  | none =>
      if v.vtype ∈ emergencyTypes then (stuck, false)
      else if v.speed < 1 / 10 ∧ v.waiting > 120 then
        if now - ((lookupKey stuck v.vid).getD 0) ≥ 60 then
          (setKey stuck v.vid now, true)
        else (stuck, false)
      else (stuck, false)

/-- The `check_stuck_vehicles` method: purge entries of departed vehicles,
then run the per-vehicle body over the current vehicles, collecting the
ids that were rerouted this tick. -/
def check_stuck_vehicles (stuck : List (String × ℚ)) (now : ℚ)
    (vehicles : List StuckVeh) : List (String × ℚ) × List String :=
  let purged := stuck.filter (fun p => (vehicles.map StuckVeh.vid).contains p.1)
  vehicles.foldl (fun acc v =>
    let r := stuckStep acc.1 now v
    (r.1, if r.2 then acc.2 ++ [v.vid] else acc.2)) (purged, [])

/-! ## Emergency-vehicle configuration (`configure_emergency_vehicle`,
    `process_emergency_vehicles`) -/

/-- Log events of the configuration path, with their logging level. -/
inductive PEv where
  | configuredOk (vid : String)
  | configureErrorLogged (vid : String)
  | leftSimulationWarning (vid : String)
  | processErrorLogged (vid : String)
deriving Repr, DecidableEq

/-- Logging levels. -/
inductive LogLevel where
  | debugL
  | infoL
  | warningL
  | errorL
deriving Repr, DecidableEq

/-- Logging level of each configuration-path event: both `except` arms of
`configure_emergency_vehicle` call `logging.error`, the left-simulation
arm of `process_emergency_vehicles` calls `logging.warning`. -/
def levelOf : PEv → LogLevel
  | PEv.configuredOk _ => LogLevel.infoL
  | PEv.configureErrorLogged _ => LogLevel.errorL
  | PEv.leftSimulationWarning _ => LogLevel.warningL
  | PEv.processErrorLogged _ => LogLevel.errorL

/-- The `configure_emergency_vehicle` method: issue the capability
commands; the whole body is wrapped in try/except, so any failure —
including the unknown-vehicle one — is logged via `logging.error` and
swallowed.  Only the log events matter to the claims. -/
def configure_emergency_vehicle (vid : String) (err : Option SimError) :
    List PEv :=
  match err with
  | none => [PEv.configuredOk vid]
  | some _ => [PEv.configureErrorLogged vid]

/-- Per-vehicle data and failure script for one iteration of the
`process_emergency_vehicles` loop: `preErr` is raised by `getTypeID`
before the configure call, `cfgErr` inside `configure_emergency_vehicle`
(where it is caught), `postErr` by the speed handling afterwards. -/
structure PVeh where
  vid : String
  vtype : String
  preErr : Option SimError
  cfgErr : Option SimError
  postErr : Option SimError
  speed : ℚ
deriving Repr, DecidableEq

/-- Controller state touched by the loop: the configured-vehicle set and
the stuck table. -/
structure ProcState where
  configured : List String
  stuck : List (String × ℚ)
deriving Repr, DecidableEq

/-- The outer exception handler of the loop body (lines 159-170): the
unknown-vehicle TraCI error removes the vehicle from both tracking
structures with a warning; everything else is logged as an error and the
vehicle is simply skipped. -/
def handleLoopError (st : ProcState) (vid : String) (e : SimError) :
    ProcState × List PEv :=
  match e with
  | SimError.unknownVehicle =>
      (⟨st.configured.erase vid, eraseKey st.stuck vid⟩,
       [PEv.leftSimulationWarning vid])
  | _ => (st, [PEv.processErrorLogged vid])

/-- One iteration of the `process_emergency_vehicles` loop.  Note the
order in the source: `configure_emergency_vehicle` (which swallows its
own errors) runs first, then the vehicle is added to
`configured_emergency_vehicles` unconditionally.  The speed-forcing and
unstick commands are not tracked; only their possible failure
(`postErr`) is. -/
def processOneVehicle (st : ProcState) (v : PVeh) : ProcState × List PEv :=
  match v.preErr with
  | some e => handleLoopError st v.vid e
  | none =>
      if v.vtype ∈ emergencyTypes then
        let stEvs :=
          if v.vid ∈ st.configured then (st, ([] : List PEv))
          else ({ st with configured := v.vid :: st.configured },
                configure_emergency_vehicle v.vid v.cfgErr)
        match v.postErr with
        | some e =>
            let r := handleLoopError stEvs.1 v.vid e
            (r.1, stEvs.2 ++ r.2)
        | none => stEvs
      else (st, [])

/-- The `process_emergency_vehicles` loop over the current vehicle list;
each vehicle contributes its own event list (so the result's second
component has one entry per vehicle — no failure aborts the loop). -/
def process_emergency_vehicles (st : ProcState) (vehicles : List PVeh) :
    ProcState × List (List PEv) :=
  vehicles.foldl (fun acc v =>
    let r := processOneVehicle acc.1 v
    (r.1, acc.2 ++ [r.2])) (st, [])

/-! ## Lemmas about the state-string construction -/

theorem getD_set_self (l : List Char) (i : Nat) (c d : Char) (h : i < l.length) :
    (l.set i c).getD i d = c := by
  induction l generalizing i with
  | nil => exact absurd h (by simp)
  | cons a rest ih =>
      cases i with
      | zero => rfl
      | succ j => exact ih j (by simpa using h)

theorem getD_set_ne (l : List Char) (i j : Nat) (c d : Char) (h : ¬ i = j) :
    (l.set i c).getD j d = l.getD j d := by
  induction l generalizing i j with
  | nil => simp [List.set]
  | cons a rest ih =>
      cases i with
      | zero =>
          cases j with
          | zero => exact absurd rfl h
          | succ j2 => rfl
      | succ i2 =>
          cases j with
          | zero => rfl
          | succ j2 => exact ih i2 j2 (fun hh => h (by simp [hh]))

theorem getD_replicate_lt (n i : Nat) (c d : Char) (h : i < n) :
    (List.replicate n c).getD i d = c := by
  induction n generalizing i with
  | zero => exact absurd h (by simp)
  | succ m ih =>
      cases i with
      | zero => rfl
      | succ j => exact ih j (by omega)

theorem applyLink_length (e : String) (n : Nat) (acc : List Char × Bool) (l : Link) :
    ((applyLink e n acc l).1).length = acc.1.length := by
  unfold applyLink
  split
  · split
    · simp
    · rfl
  · rfl

theorem applyGroup_nil (e : String) (n : Nat) (acc : List Char × Bool) :
    applyGroup e n acc [] = acc := rfl

theorem applyGroup_cons (e : String) (n : Nat) (acc : List Char × Bool)
    (l : Link) (g : List Link) :
    applyGroup e n acc (l :: g) = applyGroup e n (applyLink e n acc l) g := rfl

theorem applyGroup_length (e : String) (n : Nat) (acc : List Char × Bool)
    (g : List Link) : ((applyGroup e n acc g).1).length = acc.1.length := by
  induction g generalizing acc with
  | nil => rfl
  | cons l g2 ih =>
      rw [applyGroup_cons, ih (applyLink e n acc l), applyLink_length]

theorem applyLink_found (e : String) (n : Nat) (acc : List Char × Bool) (l : Link) :
    (applyLink e n acc l).2 =
      (acc.2 || (l.incoming_edge == e && decide (l.signal_index < n))) := by
  unfold applyLink
  by_cases h1 : l.incoming_edge = e
  · by_cases h2 : l.signal_index < n
    · simp [h1, h2]
    · simp [h1, h2]
  · simp [h1]

theorem applyGroup_found (e : String) (n : Nat) (acc : List Char × Bool)
    (g : List Link) :
    (applyGroup e n acc g).2 =
      (acc.2 || g.any (fun l => l.incoming_edge == e && decide (l.signal_index < n))) := by
  induction g generalizing acc with
  | nil => simp [applyGroup_nil]
  | cons l g2 ih =>
      rw [applyGroup_cons, ih (applyLink e n acc l), applyLink_found]
      simp [Bool.or_assoc]

theorem resolveState_found (e : String) (n : Nat) (links : List (List Link)) :
    (resolveState e n links).2 = true ↔
      ∃ g ∈ links, ∃ l ∈ g, l.incoming_edge = e ∧ l.signal_index < n := by
  have hgen : ∀ (L : List (List Link)) (acc : List Char × Bool),
      (L.foldl (applyGroup e n) acc).2 =
        (acc.2 || L.any (fun g =>
          g.any (fun l => l.incoming_edge == e && decide (l.signal_index < n)))) := by
    intro L
    induction L with
    | nil => intro acc; simp
    | cons g L2 ih =>
        intro acc
        rw [List.foldl_cons, ih (applyGroup e n acc g), applyGroup_found]
        simp [Bool.or_assoc]
  rw [resolveState, hgen]
  simp [List.any_eq_true]

theorem applyLink_getD (e : String) (n : Nat) (acc : List Char × Bool) (l : Link)
    (i : Nat) (d : Char) (hi : i < n) (hlen : acc.1.length = n) :
    ((applyLink e n acc l).1).getD i d =
      if l.incoming_edge = e ∧ l.signal_index = i then 'G' else acc.1.getD i d := by
  unfold applyLink
  by_cases h1 : l.incoming_edge = e
  · by_cases h2 : l.signal_index < n
    · rw [if_pos h1, if_pos h2]
      by_cases h3 : l.signal_index = i
      · rw [if_pos ⟨h1, h3⟩]
        subst h3
        exact getD_set_self acc.1 l.signal_index 'G' d (by rw [hlen]; exact hi)
      · rw [if_neg (fun hc => h3 hc.2)]
        exact getD_set_ne acc.1 l.signal_index i 'G' d h3
    · have h3 : ¬ l.signal_index = i := fun hc => h2 (hc ▸ hi)
      rw [if_pos h1, if_neg h2, if_neg (fun hc => h3 hc.2)]
  · rw [if_neg h1, if_neg (fun hc => h1 hc.1)]

theorem applyGroup_getD (e : String) (n : Nat) (acc : List Char × Bool)
    (g : List Link) (i : Nat) (d : Char) (hi : i < n) (hlen : acc.1.length = n) :
    ((applyGroup e n acc g).1).getD i d =
      if ∃ l ∈ g, l.incoming_edge = e ∧ l.signal_index = i then 'G'
      else acc.1.getD i d := by
  induction g generalizing acc with
  | nil => simp [applyGroup_nil]
  | cons l g2 ih =>
      rw [applyGroup_cons,
        ih (applyLink e n acc l) ((applyLink_length e n acc l).trans hlen)]
      by_cases hrest : ∃ x ∈ g2, x.incoming_edge = e ∧ x.signal_index = i
      · rw [if_pos hrest, if_pos ?_]
        obtain ⟨x, hx, hx2⟩ := hrest
        exact ⟨x, List.mem_cons_of_mem l hx, hx2⟩
      · rw [if_neg hrest, applyLink_getD e n acc l i d hi hlen]
        by_cases hl : l.incoming_edge = e ∧ l.signal_index = i
        · rw [if_pos hl, if_pos ⟨l, List.mem_cons_self l g2, hl⟩]
        · rw [if_neg hl, if_neg ?_]
          rintro ⟨x, hx, hx2⟩
          rcases List.mem_cons.mp hx with h1 | h1
          · exact hl (h1 ▸ hx2)
          · exact hrest ⟨x, h1, hx2⟩

theorem resolveState_length (e : String) (n : Nat) (links : List (List Link)) :
    ((resolveState e n links).1).length = n := by
  have hgen : ∀ (L : List (List Link)) (acc : List Char × Bool),
      ((L.foldl (applyGroup e n) acc).1).length = acc.1.length := by
    intro L
    induction L with
    | nil => intro acc; rfl
    | cons g L2 ih =>
        intro acc
        rw [List.foldl_cons, ih (applyGroup e n acc g), applyGroup_length]
  rw [resolveState, hgen]
  simp

theorem resolveState_getD (e : String) (n : Nat) (links : List (List Link))
    (i : Nat) (d : Char) (hi : i < n) :
    ((resolveState e n links).1).getD i d =
      if ∃ g ∈ links, ∃ l ∈ g, l.incoming_edge = e ∧ l.signal_index = i then 'G'
      else 'r' := by
  have hgen : ∀ (L : List (List Link)) (acc : List Char × Bool),
      acc.1.length = n →
      ((L.foldl (applyGroup e n) acc).1).getD i d =
        (if ∃ g ∈ L, ∃ l ∈ g, l.incoming_edge = e ∧ l.signal_index = i then 'G'
         else acc.1.getD i d) := by
    intro L
    induction L with
    | nil => intro acc _; simp
    | cons g L2 ih =>
        intro acc hlen
        rw [List.foldl_cons, ih (applyGroup e n acc g)
          ((applyGroup_length e n acc g).trans hlen)]
        by_cases hrest : ∃ h ∈ L2, ∃ l ∈ h, l.incoming_edge = e ∧ l.signal_index = i
        · rw [if_pos hrest, if_pos ?_]
          obtain ⟨h, hh, hrest2⟩ := hrest
          exact ⟨h, List.mem_cons_of_mem g hh, hrest2⟩
        · rw [if_neg hrest, applyGroup_getD e n acc g i d hi hlen]
          by_cases hg : ∃ l ∈ g, l.incoming_edge = e ∧ l.signal_index = i
          · rw [if_pos hg, if_pos ⟨g, List.mem_cons_self g L2, hg⟩]
          · rw [if_neg hg, if_neg ?_]
            rintro ⟨h, hh, hmem⟩
            rcases List.mem_cons.mp hh with h1 | h1
            · exact hg (h1 ▸ hmem)
            · exact hrest ⟨h, h1, hmem⟩
  rw [resolveState, hgen links (List.replicate n 'r', false) (by simp)]
  rw [getD_replicate_lt n i 'r' d hi]

/-! ## Lemmas about `preemptRecordStep` and `preempt_signal` -/

theorem preempt_signal_table_eq (table : List (String × PreemptionInfo))
    (tls : String) (veh : Candidate) (env : SimSignalEnv) (now : ℚ)
    (t2 : List (String × PreemptionInfo)) (evs : List Ev)
    (h : preemptRecordStep table tls veh env now = some (t2, evs)) :
    (preempt_signal table tls veh env now).table = t2 := by
  unfold preempt_signal
  rw [h]

theorem preempt_signal_table_none (table : List (String × PreemptionInfo))
    (tls : String) (veh : Candidate) (env : SimSignalEnv) (now : ℚ)
    (h : preemptRecordStep table tls veh env now = none) :
    preempt_signal table tls veh env now = ⟨table, none, []⟩ := by
  unfold preempt_signal
  rw [h]

theorem recordStep_create (table : List (String × PreemptionInfo)) (tls : String)
    (veh : Candidate) (env : SimSignalEnv) (now : ℚ)
    (h : lookupKey table tls = none) :
    preemptRecordStep table tls veh env now =
      some (setKey table tls
        { program := env.program
          phase := env.phase
          vehicle_id := veh.vid
          priority := veh.priority
          time := now
          passed := false },
        [Ev.preemptCreated tls veh.vid]) := by
  unfold preemptRecordStep
  rw [h]

theorem recordStep_ignore (table : List (String × PreemptionInfo)) (tls : String)
    (veh : Candidate) (env : SimSignalEnv) (now : ℚ) (old : PreemptionInfo)
    (hl : lookupKey table tls = some old)
    (h1 : ¬ veh.priority < old.priority)
    (h2 : veh.vid ≠ old.vehicle_id) :
    preemptRecordStep table tls veh env now = none := by
  unfold preemptRecordStep
  rw [hl]
  simp [h1, h2]

theorem recordStep_upgrade (table : List (String × PreemptionInfo)) (tls : String)
    (veh : Candidate) (env : SimSignalEnv) (now : ℚ) (old : PreemptionInfo)
    (hl : lookupKey table tls = some old)
    (hp : veh.priority < old.priority) :
    preemptRecordStep table tls veh env now =
      some (setKey table tls
        { old with
            vehicle_id := veh.vid
            priority := veh.priority
            time := now
            passed := false },
        [Ev.preemptUpgraded tls veh.vid]) := by
  simp [preemptRecordStep, hl, hp]

theorem recordStep_refresh (table : List (String × PreemptionInfo)) (tls : String)
    (veh : Candidate) (env : SimSignalEnv) (now : ℚ) (old : PreemptionInfo)
    (hl : lookupKey table tls = some old)
    (hp : ¬ veh.priority < old.priority)
    (hv : veh.vid = old.vehicle_id) :
    preemptRecordStep table tls veh env now =
      some (setKey table tls { old with time := now }, []) := by
  simp [preemptRecordStep, hl, hp, hv]

theorem recordStep_cases (table : List (String × PreemptionInfo)) (tls : String)
    (veh : Candidate) (env : SimSignalEnv) (now : ℚ)
    (t2 : List (String × PreemptionInfo)) (evs : List Ev)
    (h : preemptRecordStep table tls veh env now = some (t2, evs)) :
    ∃ newInfo : PreemptionInfo, t2 = setKey table tls newInfo := by
  cases hl : lookupKey table tls with
  | none =>
      rw [recordStep_create table tls veh env now hl] at h
      injection h with h3
      obtain ⟨h4, _⟩ := (Prod.mk.injEq ..).mp h3
      exact ⟨_, h4.symm⟩
  | some old =>
      by_cases hp : veh.priority < old.priority
      · rw [recordStep_upgrade table tls veh env now old hl hp] at h
        injection h with h3
        obtain ⟨h4, _⟩ := (Prod.mk.injEq ..).mp h3
        exact ⟨_, h4.symm⟩
      · by_cases hv : veh.vid = old.vehicle_id
        · rw [recordStep_refresh table tls veh env now old hl hp hv] at h
          injection h with h3
          obtain ⟨h4, _⟩ := (Prod.mk.injEq ..).mp h3
          exact ⟨_, h4.symm⟩
        · rw [recordStep_ignore table tls veh env now old hl hp hv] at h
          cases h

theorem recordStep_lookup_some (table : List (String × PreemptionInfo))
    (tls : String) (veh : Candidate) (env : SimSignalEnv) (now : ℚ)
    (t2 : List (String × PreemptionInfo)) (evs : List Ev)
    (h : preemptRecordStep table tls veh env now = some (t2, evs)) :
    ∃ info, lookupKey t2 tls = some info := by
  obtain ⟨newInfo, h4⟩ := recordStep_cases table tls veh env now t2 evs h
  exact ⟨newInfo, h4 ▸ lookupKey_setKey_self table tls newInfo⟩

theorem recordStep_nodup (table : List (String × PreemptionInfo)) (tls : String)
    (veh : Candidate) (env : SimSignalEnv) (now : ℚ)
    (t2 : List (String × PreemptionInfo)) (evs : List Ev)
    (h : preemptRecordStep table tls veh env now = some (t2, evs))
    (hnd : keysNodup table) : keysNodup t2 := by
  obtain ⟨newInfo, h4⟩ := recordStep_cases table tls veh env now t2 evs h
  exact h4 ▸ keysNodup_setKey table tls newInfo hnd

theorem recordStep_preserves (table : List (String × PreemptionInfo)) (tls : String)
    (veh : Candidate) (env : SimSignalEnv) (now : ℚ)
    (t2 : List (String × PreemptionInfo)) (evs : List Ev)
    (h : preemptRecordStep table tls veh env now = some (t2, evs))
    (t : String) (info : PreemptionInfo) (hl : lookupKey table t = some info)
    (info2 : PreemptionInfo) (hl2 : lookupKey t2 t = some info2) :
    info2.program = info.program ∧ info2.phase = info.phase ∧
      info2.priority ≤ info.priority := by
  by_cases ht : t = tls
  · subst ht
    by_cases hp : veh.priority < info.priority
    · rw [recordStep_upgrade table t veh env now info hl hp] at h
      injection h with h3
      obtain ⟨h4, _⟩ := (Prod.mk.injEq ..).mp h3
      rw [← h4, lookupKey_setKey_self] at hl2
      injection hl2 with h5
      rw [← h5]
      exact ⟨rfl, rfl, Nat.le_of_lt hp⟩
    · by_cases hv : veh.vid = info.vehicle_id
      · rw [recordStep_refresh table t veh env now info hl hp hv] at h
        injection h with h3
        obtain ⟨h4, _⟩ := (Prod.mk.injEq ..).mp h3
        rw [← h4, lookupKey_setKey_self] at hl2
        injection hl2 with h5
        rw [← h5]
        exact ⟨rfl, rfl, Nat.le_refl _⟩
      · rw [recordStep_ignore table t veh env now info hl hp hv] at h
        cases h
  · obtain ⟨newInfo, h4⟩ := recordStep_cases table tls veh env now t2 evs h
    rw [h4, lookupKey_setKey_ne table tls t newInfo ht, hl] at hl2
    injection hl2 with h5
    rw [← h5]
    exact ⟨rfl, rfl, Nat.le_refl _⟩

theorem signalStage_mismatch (tls : String) (veh : Candidate) (env : SimSignalEnv)
    (n : Nat) (hnl : env.controlled_links ≠ []) (hn : numSignals env = some n)
    (hfound : (resolveState veh.edge n env.controlled_links).2 = false) :
    signalStage tls veh env = (none, [Ev.configMismatch tls veh.edge]) := by
  simp [signalStage, hnl, hn, hfound]

theorem signalStage_found (tls : String) (veh : Candidate) (env : SimSignalEnv)
    (n : Nat) (hnl : env.controlled_links ≠ []) (hn : numSignals env = some n)
    (hfound : (resolveState veh.edge n env.controlled_links).2 = true) :
    signalStage tls veh env =
      (some (String.mk (resolveState veh.edge n env.controlled_links).1),
       [Ev.settingState tls
         (String.mk (resolveState veh.edge n env.controlled_links).1)]) := by
  simp [signalStage, hnl, hn, hfound]

theorem preempt_signal_mismatch_eq (table : List (String × PreemptionInfo))
    (tls : String) (veh : Candidate) (env : SimSignalEnv) (now : ℚ)
    (t2 : List (String × PreemptionInfo)) (evs : List Ev) (n : Nat)
    (hstep : preemptRecordStep table tls veh env now = some (t2, evs))
    (hnl : env.controlled_links ≠ [])
    (hn : numSignals env = some n)
    (hfound : (resolveState veh.edge n env.controlled_links).2 = false) :
    preempt_signal table tls veh env now =
      ⟨t2, none, evs ++ [Ev.configMismatch tls veh.edge]⟩ := by
  simp [preempt_signal, hstep, signalStage_mismatch tls veh env n hnl hn hfound]

theorem preempt_signal_found_eq (table : List (String × PreemptionInfo))
    (tls : String) (veh : Candidate) (env : SimSignalEnv) (now : ℚ)
    (t2 : List (String × PreemptionInfo)) (evs : List Ev) (n : Nat)
    (hstep : preemptRecordStep table tls veh env now = some (t2, evs))
    (hnl : env.controlled_links ≠ [])
    (hn : numSignals env = some n)
    (hfound : (resolveState veh.edge n env.controlled_links).2 = true) :
    preempt_signal table tls veh env now =
      ⟨t2, some (String.mk (resolveState veh.edge n env.controlled_links).1),
        evs ++ [Ev.settingState tls
          (String.mk (resolveState veh.edge n env.controlled_links).1)]⟩ := by
  simp [preempt_signal, hstep, signalStage_found tls veh env n hnl hn hfound]

/-! ## Claim C1 -/

/-- C1 as stated is false on the code: `preempt_signal` creates (or
updates) the preemption record before the approach edge is resolved, and
the configuration-mismatch early return keeps that record (the deleting
line is commented out in the source).  At the concrete input below — an
unpreempted intersection "X" whose only controlled link comes from edge
"F", and a candidate approaching from edge "E" — the preemption table did
not contain "X" beforehand, the mismatch is logged and the live state is
untouched, yet the table does contain "X" afterwards. -/
theorem C1_counterexample :
    lookupKey ([] : List (String × PreemptionInfo)) ("X") = none ∧
    (preempt_signal [] ("X")
        ⟨("V1"), ("ambulance"), 1, ("E"), 10⟩
        ⟨("P0"), 0, [[⟨("F"), 0⟩]], [[("rrrr")]]⟩ 0).setState = none ∧
    Ev.configMismatch ("X") ("E") ∈
      (preempt_signal [] ("X")
        ⟨("V1"), ("ambulance"), 1, ("E"), 10⟩
        ⟨("P0"), 0, [[⟨("F"), 0⟩]], [[("rrrr")]]⟩ 0).events ∧
    ¬ lookupKey (preempt_signal [] ("X")
        ⟨("V1"), ("ambulance"), 1, ("E"), 10⟩
        ⟨("P0"), 0, [[⟨("F"), 0⟩]], [[("rrrr")]]⟩ 0).table ("X") = none := by
  have hres : preempt_signal [] ("X")
      ⟨("V1"), ("ambulance"), 1, ("E"), 10⟩
      ⟨("P0"), 0, [[⟨("F"), 0⟩]], [[("rrrr")]]⟩ 0 =
      ⟨[(("X"), ⟨("P0"), 0, ("V1"), 1, 0, false⟩)], none,
        [Ev.preemptCreated ("X") ("V1"), Ev.configMismatch ("X") ("E")]⟩ := rfl
  rw [hres]
  refine ⟨rfl, rfl, ?_, ?_⟩
  · simp
  · intro hcontra
    simp [lookupKey] at hcontra

/-- C1 (amended): when the controlled-link table of the intersection has
no entry resolving the candidate's approach edge to an in-bounds signal
index (but is non-empty and the program logic is readable), the
preemption attempt is aborted: no state string is applied and a
configuration-mismatch event is logged — but the PreemptionRecord
created or updated at the start of the attempt remains in the preemption
table, so an entry for the intersection does exist afterwards. -/
theorem C1_mismatch_aborts_but_keeps_record
    (table : List (String × PreemptionInfo)) (tls : String) (veh : Candidate)
    (env : SimSignalEnv) (now : ℚ)
    (t2 : List (String × PreemptionInfo)) (evs : List Ev) (n : Nat)
    (hstep : preemptRecordStep table tls veh env now = some (t2, evs))
    (hnl : env.controlled_links ≠ [])
    (hn : numSignals env = some n)
    (hmiss : ∀ g ∈ env.controlled_links, ∀ l ∈ g,
      l.incoming_edge = veh.edge → ¬ l.signal_index < n) :
    (preempt_signal table tls veh env now).setState = none ∧
    Ev.configMismatch tls veh.edge ∈ (preempt_signal table tls veh env now).events ∧
    (preempt_signal table tls veh env now).table = t2 ∧
    ∃ info, lookupKey (preempt_signal table tls veh env now).table tls = some info := by
  have hfound : (resolveState veh.edge n env.controlled_links).2 = false := by
    rw [← Bool.not_eq_true, resolveState_found]
    rintro ⟨g, hg, l, hl, h1, h2⟩
    exact hmiss g hg l hl h1 h2
  rw [preempt_signal_mismatch_eq table tls veh env now t2 evs n hstep hnl hn hfound]
  refine ⟨rfl, by simp, rfl, ?_⟩
  exact recordStep_lookup_some table tls veh env now t2 evs hstep

/-- C1 witness: the amended theorem applied at the counterexample's
input. -/
theorem C1_mismatch_witness :
    (preempt_signal [] ("X")
        ⟨("V1"), ("ambulance"), 1, ("E"), 10⟩
        ⟨("P0"), 0, [[⟨("F"), 0⟩]], [[("rrrr")]]⟩ 0).setState = none ∧
    Ev.configMismatch ("X") ("E") ∈
      (preempt_signal [] ("X")
        ⟨("V1"), ("ambulance"), 1, ("E"), 10⟩
        ⟨("P0"), 0, [[⟨("F"), 0⟩]], [[("rrrr")]]⟩ 0).events ∧
    (preempt_signal [] ("X")
        ⟨("V1"), ("ambulance"), 1, ("E"), 10⟩
        ⟨("P0"), 0, [[⟨("F"), 0⟩]], [[("rrrr")]]⟩ 0).table =
      [(("X"), ⟨("P0"), 0, ("V1"), 1, 0, false⟩)] ∧
    ∃ info, lookupKey (preempt_signal [] ("X")
        ⟨("V1"), ("ambulance"), 1, ("E"), 10⟩
        ⟨("P0"), 0, [[⟨("F"), 0⟩]], [[("rrrr")]]⟩ 0).table ("X") = some info :=
  C1_mismatch_aborts_but_keeps_record []
    ("X") ⟨("V1"), ("ambulance"), 1, ("E"), 10⟩
    ⟨("P0"), 0, [[⟨("F"), 0⟩]], [[("rrrr")]]⟩ 0
    [(("X"), ⟨("P0"), 0, ("V1"), 1, 0, false⟩)]
    [Ev.preemptCreated ("X") ("V1")] 4
    rfl (by simp) rfl
    (by
      intro g hg l hl h1 h2
      simp at hg
      subst hg
      simp at hl
      subst hl
      simp at h1)

/-! ## Claim C2 -/

theorem keys_releaseUpdated (table : List (String × PreemptionInfo))
    (env : ReleaseEnv) :
    (releaseUpdated table env).map Prod.fst = table.map Prod.fst := by
  unfold releaseUpdated
  rw [List.map_map]
  rfl

theorem keysNodup_releaseUpdated (table : List (String × PreemptionInfo))
    (env : ReleaseEnv) (hnd : keysNodup table) :
    keysNodup (releaseUpdated table env) := by
  simp only [keysNodup] at *
  rw [keys_releaseUpdated]
  exact hnd

theorem keysNodup_filter (l : List (String × PreemptionInfo))
    (p : String × PreemptionInfo → Bool) (hnd : keysNodup l) :
    keysNodup (l.filter p) := by
  simp only [keysNodup] at *
  exact List.Nodup.sublist (List.Sublist.map Prod.fst (List.filter_sublist l)) hnd

/-- C2: the preemption table holds at most one record per intersection
(key-distinctness is preserved by both the preempt step and the release
pass); an existing record's priority can only change to a strictly lower
value (so it never increases); and a candidate whose priority number is
not lower than the current holder's, with a different vehicle id, leaves
the table — holder, priority and passed flag included — entirely
unchanged, applies no state and logs nothing. -/
theorem C2_record_invariants (table : List (String × PreemptionInfo))
    (tls : String) (veh : Candidate) (env : SimSignalEnv) (renv : ReleaseEnv)
    (now : ℚ) (hnd : keysNodup table) :
    keysNodup (preempt_signal table tls veh env now).table ∧
    keysNodup (check_signal_release table renv).1 ∧
    (∀ t info info2, lookupKey table t = some info →
      lookupKey (preempt_signal table tls veh env now).table t = some info2 →
      info2.priority ≤ info.priority) ∧
    (∀ old, lookupKey table tls = some old → old.priority ≤ veh.priority →
      veh.vid ≠ old.vehicle_id →
      preempt_signal table tls veh env now = ⟨table, none, []⟩) := by
  refine ⟨?_, ?_, ?_, ?_⟩
  · cases hstep : preemptRecordStep table tls veh env now with
    | none => rw [preempt_signal_table_none table tls veh env now hstep]; exact hnd
    | some p =>
        obtain ⟨t2, evs⟩ := p
        rw [preempt_signal_table_eq table tls veh env now t2 evs hstep]
        exact recordStep_nodup table tls veh env now t2 evs hstep hnd
  · exact keysNodup_filter _ _ (keysNodup_releaseUpdated table renv hnd)
  · intro t info info2 hl hl2
    cases hstep : preemptRecordStep table tls veh env now with
    | none =>
        rw [preempt_signal_table_none table tls veh env now hstep] at hl2
        rw [hl] at hl2
        injection hl2 with h5
        rw [← h5]
    | some p =>
        obtain ⟨t2, evs⟩ := p
        rw [preempt_signal_table_eq table tls veh env now t2 evs hstep] at hl2
        exact (recordStep_preserves table tls veh env now t2 evs hstep
          t info hl info2 hl2).2.2
  · intro old hlold hp hv
    exact preempt_signal_table_none table tls veh env now
      (recordStep_ignore table tls veh env now old hlold (Nat.not_lt.mpr hp) hv)

/-- C2 witness: at a concrete preempted table — holder "V1" with priority
1 at intersection "X" — a priority-2 candidate "W" with a different id
leaves everything unchanged, keys stay distinct, and priorities never
increase. -/
theorem C2_record_invariants_witness :
    keysNodup ((preempt_signal
        [(("X"), ⟨("P0"), 0, ("V1"), 1, 0, false⟩)] ("X")
        ⟨("W"), ("firetruck"), 2, ("E"), 10⟩
        ⟨("P0"), 0, [[⟨("E"), 0⟩]], [[("rr")]]⟩ 7).table) ∧
    keysNodup (check_signal_release
        [(("X"), ⟨("P0"), 0, ("V1"), 1, 0, false⟩)]
        ⟨7, [("V1")], fun _ => (0, 0), fun _ => (0, 0)⟩).1 ∧
    (∀ (t : String) (info info2 : PreemptionInfo),
      lookupKey [(("X"), ⟨("P0"), 0, ("V1"), 1, 0, false⟩)] t = some info →
      lookupKey ((preempt_signal
          [(("X"), ⟨("P0"), 0, ("V1"), 1, 0, false⟩)] ("X")
          ⟨("W"), ("firetruck"), 2, ("E"), 10⟩
          ⟨("P0"), 0, [[⟨("E"), 0⟩]], [[("rr")]]⟩ 7).table) t = some info2 →
      info2.priority ≤ info.priority) ∧
    (∀ (old : PreemptionInfo),
      lookupKey [(("X"), ⟨("P0"), 0, ("V1"), 1, 0, false⟩)] ("X") = some old →
      old.priority ≤ 2 → ("W") ≠ old.vehicle_id →
      preempt_signal [(("X"), ⟨("P0"), 0, ("V1"), 1, 0, false⟩)] ("X")
          ⟨("W"), ("firetruck"), 2, ("E"), 10⟩
          ⟨("P0"), 0, [[⟨("E"), 0⟩]], [[("rr")]]⟩ 7 =
        ⟨[(("X"), ⟨("P0"), 0, ("V1"), 1, 0, false⟩)], none, []⟩) :=
  C2_record_invariants [(("X"), ⟨("P0"), 0, ("V1"), 1, 0, false⟩)]
    ("X") ⟨("W"), ("firetruck"), 2, ("E"), 10⟩
    ⟨("P0"), 0, [[⟨("E"), 0⟩]], [[("rr")]]⟩
    ⟨7, [("V1")], fun _ => (0, 0), fun _ => (0, 0)⟩ 7
    (by simp [keysNodup])

/-! ## Claim C3 -/

theorem selectCandidate_min (vehicles : List Candidate) (h : vehicles ≠ []) :
    ∃ c, selectCandidate vehicles = some c ∧ c ∈ vehicles ∧
      ∀ v ∈ vehicles, c.priority ≤ v.priority := by
  have hperm := List.mergeSort_perm vehicles candLE
  have htrans : ∀ a b c : Candidate,
      candLE a b = true → candLE b c = true → candLE a c = true := by
    intro a b c hab hbc
    simp only [candLE, decide_eq_true_eq] at *
    exact Nat.le_trans hab hbc
  have htotal : ∀ a b : Candidate, (candLE a b || candLE b a) = true := by
    intro a b
    simp only [candLE, Bool.or_eq_true, decide_eq_true_eq]
    exact Nat.le_total a.priority b.priority
  have hsorted := List.sorted_mergeSort htrans htotal vehicles
  have hne : vehicles.mergeSort candLE ≠ [] := by
    intro hnil
    exact h (List.Perm.eq_nil (hnil ▸ hperm.symm))
  obtain ⟨c, rest, hcr⟩ := List.exists_cons_of_ne_nil hne
  refine ⟨c, ?_, ?_, ?_⟩
  · rw [selectCandidate, hcr]
    rfl
  · exact hperm.subset (hcr ▸ List.mem_cons_self c rest)
  · intro v hv
    have hv2 : v ∈ c :: rest := hcr ▸ hperm.symm.subset hv
    rcases List.mem_cons.mp hv2 with h1 | h1
    · rw [h1]
    · have := (List.pairwise_cons.mp (hcr ▸ hsorted)).1 v h1
      simpa [candLE] using this

/-- C3: per intersection and tick, the candidate actually used for
preemption is the one with the minimum priority number among the
intersection's qualifying candidates (Python sorts the list by priority
and takes the first element); in particular, when a priority-1 candidate
A and a priority-2 candidate B both qualify at an unpreempted
intersection, the resulting record's holder is A. -/
theorem C3_min_priority_preempted (table : List (String × PreemptionInfo))
    (tls : String) (vehicles : List Candidate) (env : SimSignalEnv) (now : ℚ)
    (h : vehicles ≠ []) :
    (∃ c, selectCandidate vehicles = some c ∧ c ∈ vehicles ∧
      (∀ v ∈ vehicles, c.priority ≤ v.priority) ∧
      processIntersection table tls vehicles env now =
        preempt_signal table tls c env now) ∧
    (∀ A B : Candidate, vehicles = [A, B] → A.priority = 1 → B.priority = 2 →
      lookupKey table tls = none →
      ∃ info, lookupKey (processIntersection table tls vehicles env now).table tls
          = some info ∧ info.vehicle_id = A.vid ∧ info.priority = A.priority) := by
  obtain ⟨c, hsel, hmem, hmin⟩ := selectCandidate_min vehicles h
  have hproc : processIntersection table tls vehicles env now =
      preempt_signal table tls c env now := by
    rw [processIntersection, hsel]
  refine ⟨⟨c, hsel, hmem, hmin, hproc⟩, ?_⟩
  intro A B hAB hA hB hnone
  have hcA : c = A := by
    subst hAB
    rcases List.mem_cons.mp hmem with h1 | h1
    · exact h1
    · have hcB : c = B := by simpa using h1
      have := hmin A (List.mem_cons_self A [B])
      rw [hcB, hB, hA] at this
      omega
  subst hcA
  rw [hproc]
  cases hstep : preemptRecordStep table tls c env now with
  | none =>
      rw [recordStep_create table tls c env now hnone] at hstep
      cases hstep
  | some p =>
      obtain ⟨t2, evs⟩ := p
      rw [preempt_signal_table_eq table tls c env now t2 evs hstep]
      rw [recordStep_create table tls c env now hnone] at hstep
      injection hstep with h3
      obtain ⟨h4, _⟩ := (Prod.mk.injEq ..).mp h3
      rw [← h4, lookupKey_setKey_self]
      exact ⟨_, rfl, rfl, rfl⟩

/-- C3 witness: ambulance "V" (priority 1) and firetruck "W" (priority 2)
both queued at the unpreempted intersection "X": the selected candidate
is minimal and the resulting holder is "V". -/
theorem C3_min_priority_witness :
    ((⟨("V"), ("ambulance"), 1, ("E"), 10⟩ : Candidate) ::
        [(⟨("W"), ("firetruck"), 2, ("E"), 12⟩ : Candidate)]) ≠ [] ∧
    (∀ info : PreemptionInfo,
      lookupKey (processIntersection []
        ("X") [⟨("V"), ("ambulance"), 1, ("E"), 10⟩,
               ⟨("W"), ("firetruck"), 2, ("E"), 12⟩]
        ⟨("P0"), 0, [[⟨("E"), 2⟩]], [[("rrrr")]]⟩ 0).table ("X") = some info →
      info.vehicle_id = ("V")) := by
  have hmain := C3_min_priority_preempted [] ("X")
    [⟨("V"), ("ambulance"), 1, ("E"), 10⟩, ⟨("W"), ("firetruck"), 2, ("E"), 12⟩]
    ⟨("P0"), 0, [[⟨("E"), 2⟩]], [[("rrrr")]]⟩ 0 (by simp)
  obtain ⟨info, hinfo, hvid, _⟩ := hmain.2
    ⟨("V"), ("ambulance"), 1, ("E"), 10⟩ ⟨("W"), ("firetruck"), 2, ("E"), 12⟩
    rfl rfl rfl rfl
  refine ⟨by simp, ?_⟩
  intro info2 hinfo2
  rw [hinfo] at hinfo2
  injection hinfo2 with h5
  rw [← h5, hvid]

/-! ## Claims C4 and C5 -/

theorem updatePassed_fields (env : ReleaseEnv) (tls : String)
    (info : PreemptionInfo) :
    (updatePassed env tls info).program = info.program ∧
    (updatePassed env tls info).phase = info.phase ∧
    (updatePassed env tls info).vehicle_id = info.vehicle_id ∧
    (updatePassed env tls info).priority = info.priority := by
  unfold updatePassed
  split_ifs <;> exact ⟨rfl, rfl, rfl, rfl⟩

theorem release_cmd_spec (table : List (String × PreemptionInfo))
    (env : ReleaseEnv) (c : TlsCommand)
    (hc : c ∈ (check_signal_release table env).2) :
    ∃ tls info, (tls, info) ∈ table ∧
      c = TlsCommand.setProgram tls info.program ∧
      (updatePassed env tls info).passed = true ∧
      env.now - (updatePassed env tls info).time ≥ 5 := by
  unfold check_signal_release releaseUpdated at hc
  obtain ⟨p, hp, hcp⟩ := List.mem_map.mp hc
  obtain ⟨hpmem, hpdue⟩ := List.mem_filter.mp hp
  obtain ⟨q, hq, hqp⟩ := List.mem_map.mp hpmem
  rw [← hqp] at hpdue hcp
  have hdue2 : (updatePassed env q.1 q.2).passed = true ∧
      env.now - (updatePassed env q.1 q.2).time ≥ 5 := by
    simpa [releaseDue] using hpdue
  refine ⟨q.1, q.2, by simpa using hq, ?_, hdue2.1, hdue2.2⟩
  rw [← hcp, (updatePassed_fields env q.1 q.2).1]

theorem lookupKey_filter_none (l : List (String × PreemptionInfo)) (k : String)
    (v : PreemptionInfo) (p : String × PreemptionInfo → Bool)
    (hnd : keysNodup l) (hmem : (k, v) ∈ l) (hp : p (k, v) = false) :
    lookupKey (l.filter p) k = none := by
  apply lookupKey_notMem
  intro hk
  obtain ⟨q, hq, hfst⟩ := List.mem_map.mp hk
  have hql : q ∈ l := List.mem_of_mem_filter hq
  have hpq : p q = true := List.of_mem_filter hq
  have hq2 : q = (k, q.2) := by
    rw [← hfst]
  have h1 := lookupKey_of_mem l k v hnd hmem
  have h2 := lookupKey_of_mem l k q.2 hnd (hq2 ▸ hql)
  rw [h1] at h2
  injection h2 with h3
  rw [hq2, ← h3, hp] at hpq
  cases hpq

theorem release_deletes (table : List (String × PreemptionInfo))
    (renv : ReleaseEnv) (t : String) (i : PreemptionInfo)
    (hnd : keysNodup table) (hmem : (t, i) ∈ table)
    (hdue : releaseDue renv (t, updatePassed renv t i) = true) :
    lookupKey (check_signal_release table renv).1 t = none := by
  unfold check_signal_release
  exact lookupKey_filter_none (releaseUpdated table renv) t
    (updatePassed renv t i) _
    (keysNodup_releaseUpdated table renv hnd)
    (List.mem_map_of_mem (fun p => (p.1, updatePassed renv p.1 p.2)) hmem)
    (by simp [hdue])

/-- C4: the release pass flags a not-yet-passed record `passed` exactly
when the holder has left the simulation or its squared straight-line
distance to the junction exceeds the squared 55-unit threshold while
still present, stamping `time` with the current time; an already-passed
record is left untouched by the pass (the flag is set only the first
time); and every program-restore command emitted corresponds to a record
whose updated flag is `passed` with at least 5 time-units elapsed since
the stamped time, so released − flagged ≥ 5. -/
theorem C4_passed_flag_and_grace (env : ReleaseEnv) (tls : String)
    (info : PreemptionInfo) (table : List (String × PreemptionInfo)) :
    (info.passed = false →
      (((updatePassed env tls info).passed = true) ↔
        (info.vehicle_id ∉ env.present ∨
          dist2 (env.vehPos info.vehicle_id) (env.tlsPos tls) >
            passedThreshold ^ 2)) ∧
      ((updatePassed env tls info).passed = true →
        (updatePassed env tls info).time = env.now)) ∧
    (info.passed = true → updatePassed env tls info = info) ∧
    (∀ c ∈ (check_signal_release table env).2, ∃ t i, (t, i) ∈ table ∧
      c = TlsCommand.setProgram t i.program ∧
      (updatePassed env t i).passed = true ∧
      env.now - (updatePassed env t i).time ≥ 5) := by
  refine ⟨?_, ?_, ?_⟩
  · intro hfalse
    constructor
    · by_cases hpres : info.vehicle_id ∈ env.present
      · by_cases hdist : dist2 (env.vehPos info.vehicle_id) (env.tlsPos tls) >
            passedThreshold ^ 2
        · simp [updatePassed, hpres, hfalse, hdist]
        · simp [updatePassed, hpres, hfalse, hdist]
      · simp [updatePassed, hpres, hfalse]
    · intro hset
      by_cases hpres : info.vehicle_id ∈ env.present
      · by_cases hdist : dist2 (env.vehPos info.vehicle_id) (env.tlsPos tls) >
            passedThreshold ^ 2
        · simp [updatePassed, hpres, hfalse, hdist]
        · rw [updatePassed] at hset
          simp [hpres, hfalse, hdist] at hset
      · simp [updatePassed, hpres, hfalse]
  · intro htrue
    unfold updatePassed
    simp [htrue]
  · exact release_cmd_spec table env

/-- C4 witness: with current time 10 and the holder "V" gone from the
simulation, a not-yet-passed record is flagged with time 10; and the
single due record of a one-entry table is released with its program,
5 or more time-units after its stamp. -/
theorem C4_passed_flag_witness :
    ((updatePassed ⟨10, [], fun _ => (0, 0), fun _ => (0, 0)⟩ ("X")
        ⟨("P0"), 0, ("V"), 1, 0, false⟩).passed = true) ∧
    ((updatePassed ⟨10, [], fun _ => (0, 0), fun _ => (0, 0)⟩ ("X")
        ⟨("P0"), 0, ("V"), 1, 0, false⟩).time = 10) ∧
    (∀ c ∈ (check_signal_release [(("X"), ⟨("P7"), 3, ("V"), 1, 0, true⟩)]
        ⟨10, [], fun _ => (0, 0), fun _ => (0, 0)⟩).2,
      ∃ (t : String) (i : PreemptionInfo),
        (t, i) ∈ [(("X"), ⟨("P7"), 3, ("V"), 1, 0, true⟩)] ∧
        c = TlsCommand.setProgram t i.program ∧
        (updatePassed ⟨10, [], fun _ => (0, 0), fun _ => (0, 0)⟩ t i).passed = true ∧
        (10 : ℚ) - (updatePassed ⟨10, [], fun _ => (0, 0), fun _ => (0, 0)⟩ t i).time ≥ 5) := by
  have h1 := C4_passed_flag_and_grace ⟨10, [], fun _ => (0, 0), fun _ => (0, 0)⟩
    ("X") ⟨("P0"), 0, ("V"), 1, 0, false⟩
    [(("X"), ⟨("P7"), 3, ("V"), 1, 0, true⟩)]
  refine ⟨(h1.1 rfl).1.mpr (Or.inl (by simp)), (h1.1 rfl).2 ?_, h1.2.2⟩
  exact (h1.1 rfl).1.mpr (Or.inl (by simp))

/-- C5: a release restores exactly the program id captured when the
record was created.  Creation saves the current program id; both the
upgrade and refresh transitions of `preempt_signal` leave the saved
program id of every existing record untouched (the release pass also
never changes it, by `updatePassed_fields`); and every release command
carries the released record's saved program id, with the record deleted
from the table afterwards. -/
theorem C5_program_roundtrip (table : List (String × PreemptionInfo))
    (tls : String) (veh : Candidate) (env : SimSignalEnv) (renv : ReleaseEnv)
    (now : ℚ) :
    (lookupKey table tls = none →
      ∀ info2, lookupKey (preempt_signal table tls veh env now).table tls =
          some info2 → info2.program = env.program) ∧
    (∀ t info info2, lookupKey table t = some info →
      lookupKey (preempt_signal table tls veh env now).table t = some info2 →
      info2.program = info.program) ∧
    (keysNodup table →
      ∀ c ∈ (check_signal_release table renv).2, ∃ t i, (t, i) ∈ table ∧
        c = TlsCommand.setProgram t i.program ∧
        lookupKey (check_signal_release table renv).1 t = none) := by
  refine ⟨?_, ?_, ?_⟩
  · intro hnone info2 hl2
    cases hstep : preemptRecordStep table tls veh env now with
    | none =>
        rw [recordStep_create table tls veh env now hnone] at hstep
        cases hstep
    | some p =>
        obtain ⟨t2, evs⟩ := p
        rw [preempt_signal_table_eq table tls veh env now t2 evs hstep] at hl2
        rw [recordStep_create table tls veh env now hnone] at hstep
        injection hstep with h3
        obtain ⟨h4, _⟩ := (Prod.mk.injEq ..).mp h3
        rw [← h4, lookupKey_setKey_self] at hl2
        injection hl2 with h5
        rw [← h5]
  · intro t info info2 hl hl2
    cases hstep : preemptRecordStep table tls veh env now with
    | none =>
        rw [preempt_signal_table_none table tls veh env now hstep] at hl2
        rw [hl] at hl2
        injection hl2 with h5
        rw [← h5]
    | some p =>
        obtain ⟨t2, evs⟩ := p
        rw [preempt_signal_table_eq table tls veh env now t2 evs hstep] at hl2
        exact (recordStep_preserves table tls veh env now t2 evs hstep
          t info hl info2 hl2).1
  · intro hnd c hc
    obtain ⟨t, i, hmem, hcmd, hpassed, hgap⟩ := release_cmd_spec table renv c hc
    refine ⟨t, i, hmem, hcmd, ?_⟩
    exact release_deletes table renv t i hnd hmem (by simp [releaseDue, hpassed, hgap])

/-- C5 witness: creating a record at the unpreempted "X" saves the
current program "P0"; and the due record of a one-entry table is
released with its saved program "P7" and removed from the table. -/
theorem C5_program_roundtrip_witness :
    (∀ info2 : PreemptionInfo,
      lookupKey (preempt_signal [] ("X")
          ⟨("V"), ("ambulance"), 1, ("E"), 10⟩
          ⟨("P0"), 0, [[⟨("E"), 0⟩]], [[("rr")]]⟩ 0).table ("X") = some info2 →
      info2.program = ("P0")) ∧
    (∀ c ∈ (check_signal_release [(("X"), ⟨("P7"), 3, ("V"), 1, 0, true⟩)]
        ⟨10, [], fun _ => (0, 0), fun _ => (0, 0)⟩).2,
      ∃ (t : String) (i : PreemptionInfo),
        (t, i) ∈ [(("X"), ⟨("P7"), 3, ("V"), 1, 0, true⟩)] ∧
        c = TlsCommand.setProgram t i.program ∧
        lookupKey (check_signal_release [(("X"), ⟨("P7"), 3, ("V"), 1, 0, true⟩)]
          ⟨10, [], fun _ => (0, 0), fun _ => (0, 0)⟩).1 t = none) := by
  have h1 := C5_program_roundtrip []
    ("X") ⟨("V"), ("ambulance"), 1, ("E"), 10⟩
    ⟨("P0"), 0, [[⟨("E"), 0⟩]], [[("rr")]]⟩
    ⟨10, [], fun _ => (0, 0), fun _ => (0, 0)⟩ 0
  have h2 := C5_program_roundtrip [(("X"), ⟨("P7"), 3, ("V"), 1, 0, true⟩)]
    ("X") ⟨("V"), ("ambulance"), 1, ("E"), 10⟩
    ⟨("P0"), 0, [[⟨("E"), 0⟩]], [[("rr")]]⟩
    ⟨10, [], fun _ => (0, 0), fun _ => (0, 0)⟩ 0
  exact ⟨h1.1 rfl, h2.2.2 (by simp [keysNodup])⟩

/-! ## Claim C6 -/

/-- C6: whenever the approach edge resolves to at least one in-bounds
signal index, `preempt_signal` applies a state string whose length is the
phase-definition length, in which an index is 'G' exactly when some
controlled link maps the approach edge to it, and every other index is
'r'; and a first activation saves the intersection's current program id
and phase in the new record. -/
theorem C6_green_state_string (table : List (String × PreemptionInfo))
    (tls : String) (veh : Candidate) (env : SimSignalEnv) (now : ℚ)
    (t2 : List (String × PreemptionInfo)) (evs : List Ev) (n : Nat)
    (hstep : preemptRecordStep table tls veh env now = some (t2, evs))
    (hn : numSignals env = some n)
    (hres : ∃ g ∈ env.controlled_links, ∃ l ∈ g,
      l.incoming_edge = veh.edge ∧ l.signal_index < n) :
    (∃ s : String, (preempt_signal table tls veh env now).setState = some s ∧
      s.data.length = n ∧
      ∀ i, i < n →
        (s.data.getD i 'x' = 'G' ↔
          ∃ g ∈ env.controlled_links, ∃ l ∈ g,
            l.incoming_edge = veh.edge ∧ l.signal_index = i) ∧
        (s.data.getD i 'x' = 'G' ∨ s.data.getD i 'x' = 'r')) ∧
    (lookupKey table tls = none →
      ∃ info, lookupKey (preempt_signal table tls veh env now).table tls =
          some info ∧ info.program = env.program ∧ info.phase = env.phase) := by
  have hnl : env.controlled_links ≠ [] := by
    obtain ⟨g, hg, _⟩ := hres
    intro hcontra
    rw [hcontra] at hg
    cases hg
  have hfound : (resolveState veh.edge n env.controlled_links).2 = true :=
    (resolveState_found veh.edge n env.controlled_links).mpr hres
  constructor
  · refine ⟨String.mk (resolveState veh.edge n env.controlled_links).1, ?_, ?_, ?_⟩
    · rw [preempt_signal_found_eq table tls veh env now t2 evs n hstep hnl hn hfound]
    · exact resolveState_length veh.edge n env.controlled_links
    · intro i hi
      constructor
      · rw [resolveState_getD veh.edge n env.controlled_links i 'x' hi]
        constructor
        · intro hG
          by_cases hcond : ∃ g ∈ env.controlled_links, ∃ l ∈ g,
              l.incoming_edge = veh.edge ∧ l.signal_index = i
          · exact hcond
          · rw [if_neg hcond] at hG
            cases hG
        · intro hcond
          rw [if_pos hcond]
      · rw [resolveState_getD veh.edge n env.controlled_links i 'x' hi]
        by_cases hcond : ∃ g ∈ env.controlled_links, ∃ l ∈ g,
            l.incoming_edge = veh.edge ∧ l.signal_index = i
        · exact Or.inl (by rw [if_pos hcond])
        · exact Or.inr (by rw [if_neg hcond])
  · intro hnone
    cases hstep2 : preemptRecordStep table tls veh env now with
    | none =>
        rw [recordStep_create table tls veh env now hnone] at hstep2
        cases hstep2
    | some p =>
        obtain ⟨t3, evs3⟩ := p
        rw [preempt_signal_table_eq table tls veh env now t3 evs3 hstep2]
        rw [recordStep_create table tls veh env now hnone] at hstep2
        injection hstep2 with h3
        obtain ⟨h4, _⟩ := (Prod.mk.injEq ..).mp h3
        rw [← h4, lookupKey_setKey_self]
        exact ⟨_, rfl, rfl, rfl⟩

/-- C6 witness: the spec's scenario — intersection "X", approach edge "E"
mapped to signal index 2 of a 4-character state string, ambulance "V"
first activation: the applied string is "rrGr" (index 2 green, all
others red) and program "P0" / phase 1 are saved in the record. -/
theorem C6_green_state_witness :
    (preempt_signal [] ("X") ⟨("V"), ("ambulance"), 1, ("E"), 10⟩
        ⟨("P0"), 1, [[⟨("E"), 2⟩]], [[("rrrr")]]⟩ 0).setState = some ("rrGr") ∧
    (∃ s : String, (preempt_signal [] ("X") ⟨("V"), ("ambulance"), 1, ("E"), 10⟩
        ⟨("P0"), 1, [[⟨("E"), 2⟩]], [[("rrrr")]]⟩ 0).setState = some s ∧
      s.data.length = 4 ∧
      ∀ i, i < 4 →
        (s.data.getD i 'x' = 'G' ↔
          ∃ g ∈ [[(⟨("E"), 2⟩ : Link)]], ∃ l ∈ g,
            l.incoming_edge = ("E") ∧ l.signal_index = i) ∧
        (s.data.getD i 'x' = 'G' ∨ s.data.getD i 'x' = 'r')) ∧
    (∃ info, lookupKey (preempt_signal [] ("X")
        ⟨("V"), ("ambulance"), 1, ("E"), 10⟩
        ⟨("P0"), 1, [[⟨("E"), 2⟩]], [[("rrrr")]]⟩ 0).table ("X") = some info ∧
      info.program = ("P0") ∧ info.phase = 1) := by
  have h := C6_green_state_string [] ("X") ⟨("V"), ("ambulance"), 1, ("E"), 10⟩
    ⟨("P0"), 1, [[⟨("E"), 2⟩]], [[("rrrr")]]⟩ 0
    (setKey [] ("X") ⟨("P0"), 1, ("V"), 1, 0, false⟩)
    [Ev.preemptCreated ("X") ("V")] 4 rfl rfl
    ⟨[⟨("E"), 2⟩], by simp, ⟨("E"), 2⟩, by simp, rfl, by simp⟩
  exact ⟨rfl, h.1, h.2 rfl⟩

/-! ## Claim C7 -/

/-- C7 as stated is false on the code: `configure_emergency_vehicle`
wraps its own body in try/except and logs every failure — including the
unknown-vehicle one — via `logging.error`; the caller in
`process_emergency_vehicles` then still adds the vehicle to the
configured set (the add comes after the call, and the call never
raises).  Concretely: ambulance "A1" departs between `getTypeID` and the
configure call, so the simulation reports it unknown inside the call;
afterwards "A1" IS in the configured set and an error-level event WAS
logged. -/
theorem C7_counterexample :
    (processOneVehicle ⟨[], []⟩
        ⟨("A1"), ("ambulance"), none, some SimError.unknownVehicle, none, 0⟩).1.configured
      = [("A1")] ∧
    PEv.configureErrorLogged ("A1") ∈
      (processOneVehicle ⟨[], []⟩
        ⟨("A1"), ("ambulance"), none, some SimError.unknownVehicle, none, 0⟩).2 ∧
    levelOf (PEv.configureErrorLogged ("A1")) = LogLevel.errorL := by
  have h : processOneVehicle ⟨[], []⟩
      ⟨("A1"), ("ambulance"), none, some SimError.unknownVehicle, none, 0⟩ =
      (⟨[("A1")], []⟩, [PEv.configureErrorLogged ("A1")]) := rfl
  rw [h]
  exact ⟨rfl, by simp, rfl⟩

theorem process_loop_events_length (st : ProcState) (vehicles : List PVeh) :
    ((process_emergency_vehicles st vehicles).2).length = vehicles.length := by
  suffices hgen : ∀ (vs : List PVeh) (s : ProcState) (acc : List (List PEv)),
      ((vs.foldl (fun acc v =>
          let r := processOneVehicle acc.1 v
          (r.1, acc.2 ++ [r.2])) (s, acc)).2).length = acc.length + vs.length by
    simpa using hgen vehicles st []
  intro vs
  induction vs with
  | nil => intro s acc; simp
  | cons v rest ih =>
      intro s acc
      rw [List.foldl_cons]
      rw [ih (processOneVehicle s v).1 (acc ++ [(processOneVehicle s v).2])]
      simp
      omega

/-- C7 (amended): when the simulation reports the vehicle unknown inside
the configuration call itself, the failure is caught there, logged at
error level, and the caller still adds the vehicle to the configured set
(it is not dropped); when the unknown-vehicle error is instead raised in
the surrounding per-vehicle loop body, the vehicle is dropped from both
the configured set and the stuck table with only a warning; and in
either case the loop is never aborted — every vehicle of the tick
contributes its own processing outcome. -/
theorem C7_unknown_vehicle_handling (st : ProcState) (v : PVeh) :
    (v.preErr = none → v.vtype ∈ emergencyTypes → v.vid ∉ st.configured →
      v.cfgErr = some SimError.unknownVehicle → v.postErr = none →
      v.vid ∈ (processOneVehicle st v).1.configured ∧
      PEv.configureErrorLogged v.vid ∈ (processOneVehicle st v).2 ∧
      levelOf (PEv.configureErrorLogged v.vid) = LogLevel.errorL) ∧
    (v.preErr = some SimError.unknownVehicle → st.configured.Nodup →
      keysNodup st.stuck →
      v.vid ∉ (processOneVehicle st v).1.configured ∧
      lookupKey (processOneVehicle st v).1.stuck v.vid = none ∧
      (processOneVehicle st v).2 = [PEv.leftSimulationWarning v.vid] ∧
      levelOf (PEv.leftSimulationWarning v.vid) = LogLevel.warningL) ∧
    (∀ vehicles : List PVeh,
      ((process_emergency_vehicles st vehicles).2).length = vehicles.length) := by
  refine ⟨?_, ?_, process_loop_events_length st⟩
  · intro hpre htype hnotin hcfg hpost
    have h : processOneVehicle st v =
        ({ st with configured := v.vid :: st.configured },
         [PEv.configureErrorLogged v.vid]) := by
      unfold processOneVehicle
      rw [hpre, hcfg, hpost]
      simp [htype, hnotin, configure_emergency_vehicle]
    rw [h]
    exact ⟨by simp, by simp, rfl⟩
  · intro hpre hnd hknd
    have h : processOneVehicle st v =
        (⟨st.configured.erase v.vid, eraseKey st.stuck v.vid⟩,
         [PEv.leftSimulationWarning v.vid]) := by
      unfold processOneVehicle
      rw [hpre]
      rfl
    rw [h]
    exact ⟨hnd.not_mem_erase, lookupKey_eraseKey_self st.stuck v.vid hknd, rfl, rfl⟩

/-- C7 witness: the amended theorem applied to a vehicle hitting the
unknown error inside configuration, to a vehicle hitting it in the loop
body, and to a two-vehicle tick. -/
theorem C7_unknown_vehicle_witness :
    (("A1") ∈ (processOneVehicle ⟨[], []⟩
        ⟨("A1"), ("ambulance"), none, some SimError.unknownVehicle, none, 0⟩).1.configured ∧
      PEv.configureErrorLogged ("A1") ∈ (processOneVehicle ⟨[], []⟩
        ⟨("A1"), ("ambulance"), none, some SimError.unknownVehicle, none, 0⟩).2 ∧
      levelOf (PEv.configureErrorLogged ("A1")) = LogLevel.errorL) ∧
    (("A2") ∉ (processOneVehicle ⟨[("A2")], [(("A2"), 3)]⟩
        ⟨("A2"), ("police"), some SimError.unknownVehicle, none, none, 0⟩).1.configured ∧
      lookupKey (processOneVehicle ⟨[("A2")], [(("A2"), 3)]⟩
        ⟨("A2"), ("police"), some SimError.unknownVehicle, none, none, 0⟩).1.stuck ("A2")
        = none ∧
      (processOneVehicle ⟨[("A2")], [(("A2"), 3)]⟩
        ⟨("A2"), ("police"), some SimError.unknownVehicle, none, none, 0⟩).2 =
        [PEv.leftSimulationWarning ("A2")] ∧
      levelOf (PEv.leftSimulationWarning ("A2")) = LogLevel.warningL) ∧
    ((process_emergency_vehicles ⟨[], []⟩
        [⟨("A1"), ("ambulance"), none, some SimError.unknownVehicle, none, 0⟩,
         ⟨("B1"), ("car"), some SimError.traciOther, none, none, 0⟩]).2).length = 2 := by
  have h1 := C7_unknown_vehicle_handling ⟨[], []⟩
    ⟨("A1"), ("ambulance"), none, some SimError.unknownVehicle, none, 0⟩
  have h2 := C7_unknown_vehicle_handling ⟨[("A2")], [(("A2"), 3)]⟩
    ⟨("A2"), ("police"), some SimError.unknownVehicle, none, none, 0⟩
  refine ⟨h1.1 rfl (by simp [emergencyTypes]) (by simp) rfl rfl, ?_, ?_⟩
  · exact h2.2.1 rfl (by simp) (by simp [keysNodup])
  · exact h1.2.2 [⟨("A1"), ("ambulance"), none, some SimError.unknownVehicle, none, 0⟩,
      ⟨("B1"), ("car"), some SimError.traciOther, none, none, 0⟩]

/-! ## Claim C8 -/

theorem clearCmdsFor_targets (em : PcVehicle) (radius : ℚ) (env : ClearEnv)
    (emIdx : Nat) (v : PcVehicle) (p : PcVehicle × VehCmd)
    (hp : p ∈ clearCmdsFor em radius env emIdx v) :
    p.1 = v ∧ ¬ (v.vid = em.vid ∨ v.vtype ∈ emergencyTypes) := by
  unfold clearCmdsFor at hp
  by_cases hskip : v.vid = em.vid ∨ v.vtype ∈ emergencyTypes
  · rw [if_pos hskip] at hp
    cases hp
  · rw [if_neg hskip] at hp
    refine ⟨?_, hskip⟩
    by_cases hedge : v.edgeId ≠ em.edgeId
    · rw [if_pos hedge] at hp
      cases hp
    · rw [if_neg hedge] at hp
      split at hp
      · cases hp
      · split at hp
        · rcases List.mem_append.mp hp with h1 | h1
          · split at h1
            · split at h1
              · have h2 := List.mem_singleton.mp h1
                rw [h2]
              · cases h1
            · cases h1
          · have h2 := List.mem_singleton.mp h1
            rw [h2]
        · cases hp

/-- C8: `clear_path` never issues a lane-change or deceleration command
to the emergency vehicle itself or to any emergency-class vehicle
(ambulance, firetruck, police) — in the junction branch and in the
regular-segment branch alike, the very first per-candidate check skips
them. -/
theorem C8_clear_path_never_targets_emergency (em : PcVehicle) (radius : ℚ)
    (env : ClearEnv) (p : PcVehicle × VehCmd)
    (hp : p ∈ clear_path em radius env) :
    p.1.vid ≠ em.vid ∧ p.1.vtype ∉ emergencyTypes := by
  unfold clear_path at hp
  by_cases hj : isInternalEdge em.edgeId = true
  · rw [if_pos hj] at hp
    obtain ⟨v, hv, hvp⟩ := List.mem_filterMap.mp hp
    by_cases hskip : v.vid = em.vid ∨ v.vtype ∈ emergencyTypes
    · rw [if_pos hskip] at hvp
      cases hvp
    · rw [if_neg hskip] at hvp
      by_cases hdist : dist2 em.pos v.pos < radius ^ 2
      · rw [if_pos hdist] at hvp
        injection hvp with h2
        push_neg at hskip
        rw [← h2]
        exact hskip
      · rw [if_neg hdist] at hvp
        cases hvp
  · rw [if_neg hj] at hp
    split at hp
    · cases hp
    · obtain ⟨l, hl, hpl⟩ := List.mem_flatten.mp hp
      obtain ⟨v, hv, hvl⟩ := List.mem_map.mp hl
      rw [← hvl] at hpl
      obtain ⟨h2, hskip⟩ := clearCmdsFor_targets em radius env _ v p hpl
      push_neg at hskip
      rw [h2]
      exact hskip

/-- C8 witness: the junction branch with the emergency vehicle "EV"
itself, the ambulance "A9" and the ordinary car "C1" all within the
30-unit radius: the only command targets "C1", which is neither "EV" nor
of an emergency class. -/
theorem C8_clear_path_witness :
    ((⟨("C1"), ("car"), (3, 4), ("L_0"), ("E1"), 0⟩ : PcVehicle),
        VehCmd.slowDown (1 / 2) 1) ∈
      clear_path ⟨("EV"), ("ambulance"), (0, 0), (":J_0"), (":J"), 0⟩ 30
        ⟨[⟨("EV"), ("ambulance"), (0, 0), (":J_0"), (":J"), 0⟩,
          ⟨("A9"), ("ambulance"), (1, 1), ("L_0"), ("E1"), 0⟩,
          ⟨("C1"), ("car"), (3, 4), ("L_0"), ("E1"), 0⟩],
         fun _ => 1, fun _ _ => false⟩ ∧
    (⟨("C1"), ("car"), (3, 4), ("L_0"), ("E1"), 0⟩ : PcVehicle).vid ≠ ("EV") ∧
    (⟨("C1"), ("car"), (3, 4), ("L_0"), ("E1"), 0⟩ : PcVehicle).vtype ∉
      emergencyTypes := by
  have hmem : ((⟨("C1"), ("car"), (3, 4), ("L_0"), ("E1"), 0⟩ : PcVehicle),
      VehCmd.slowDown (1 / 2) 1) ∈
      clear_path ⟨("EV"), ("ambulance"), (0, 0), (":J_0"), (":J"), 0⟩ 30
        ⟨[⟨("EV"), ("ambulance"), (0, 0), (":J_0"), (":J"), 0⟩,
          ⟨("A9"), ("ambulance"), (1, 1), ("L_0"), ("E1"), 0⟩,
          ⟨("C1"), ("car"), (3, 4), ("L_0"), ("E1"), 0⟩],
         fun _ => 1, fun _ _ => false⟩ := by
    unfold clear_path
    norm_num [isInternalEdge, emergencyTypes, dist2]
    decide
  have h := C8_clear_path_never_targets_emergency
    ⟨("EV"), ("ambulance"), (0, 0), (":J_0"), (":J"), 0⟩ 30
    ⟨[⟨("EV"), ("ambulance"), (0, 0), (":J_0"), (":J"), 0⟩,
      ⟨("A9"), ("ambulance"), (1, 1), ("L_0"), ("E1"), 0⟩,
      ⟨("C1"), ("car"), (3, 4), ("L_0"), ("E1"), 0⟩],
     fun _ => 1, fun _ _ => false⟩
    (⟨("C1"), ("car"), (3, 4), ("L_0"), ("E1"), 0⟩, VehCmd.slowDown (1 / 2) 1)
    hmem
  exact ⟨hmem, h.1, h.2⟩

/-! ## Claim C9 -/

theorem stuckStep_skip_emergency (stuck : List (String × ℚ)) (now : ℚ)
    (v : StuckVeh) (hok : v.err = none) (hem : v.vtype ∈ emergencyTypes) :
    stuckStep stuck now v = (stuck, false) := by
  unfold stuckStep
  rw [hok]
  rw [if_pos hem]

theorem stuckStep_fire (stuck : List (String × ℚ)) (now : ℚ) (v : StuckVeh)
    (hok : v.err = none) (hem : v.vtype ∉ emergencyTypes)
    (hcond : v.speed < 1 / 10 ∧ v.waiting > 120)
    (hgap : now - ((lookupKey stuck v.vid).getD 0) ≥ 60) :
    stuckStep stuck now v = (setKey stuck v.vid now, true) := by
  unfold stuckStep
  rw [hok]
  rw [if_neg hem, if_pos hcond, if_pos hgap]

theorem stuckStep_hold_gap (stuck : List (String × ℚ)) (now : ℚ) (v : StuckVeh)
    (hok : v.err = none) (hem : v.vtype ∉ emergencyTypes)
    (hcond : v.speed < 1 / 10 ∧ v.waiting > 120)
    (hgap : ¬ now - ((lookupKey stuck v.vid).getD 0) ≥ 60) :
    stuckStep stuck now v = (stuck, false) := by
  unfold stuckStep
  rw [hok]
  rw [if_neg hem, if_pos hcond, if_neg hgap]

theorem stuckStep_hold_cond (stuck : List (String × ℚ)) (now : ℚ) (v : StuckVeh)
    (hok : v.err = none) (hem : v.vtype ∉ emergencyTypes)
    (hcond : ¬ (v.speed < 1 / 10 ∧ v.waiting > 120)) :
    stuckStep stuck now v = (stuck, false) := by
  unfold stuckStep
  rw [hok]
  rw [if_neg hem, if_neg hcond]

/-- C9: for a non-emergency vehicle whose queries succeed this tick, a
reroute is triggered exactly when speed < 0.1, accumulated waiting time
> 120 and at least 60 time-units have passed since the vehicle's last
handling (taken as 0 when it was never handled); the handling timestamp
is recorded on trigger; and consequently, while a handling timestamp is
on record, no retrigger happens within 60 time-units of it. -/
theorem C9_stuck_trigger_iff (stuck : List (String × ℚ)) (now : ℚ)
    (v : StuckVeh) (hok : v.err = none) :
    ((stuckStep stuck now v).2 = true ↔
      (v.vtype ∉ emergencyTypes ∧ v.speed < 1 / 10 ∧ v.waiting > 120 ∧
        now - ((lookupKey stuck v.vid).getD 0) ≥ 60)) ∧
    ((stuckStep stuck now v).2 = true →
      lookupKey (stuckStep stuck now v).1 v.vid = some now) ∧
    (∀ t : ℚ, lookupKey stuck v.vid = some t →
      (stuckStep stuck now v).2 = true → now - t ≥ 60) := by
  have hiff : (stuckStep stuck now v).2 = true ↔
      (v.vtype ∉ emergencyTypes ∧ v.speed < 1 / 10 ∧ v.waiting > 120 ∧
        now - ((lookupKey stuck v.vid).getD 0) ≥ 60) := by
    by_cases hem : v.vtype ∈ emergencyTypes
    · rw [stuckStep_skip_emergency stuck now v hok hem]
      constructor
      · intro h
        cases h
      · intro h
        exact absurd hem h.1
    · by_cases hcond : v.speed < 1 / 10 ∧ v.waiting > 120
      · by_cases hgap : now - ((lookupKey stuck v.vid).getD 0) ≥ 60
        · rw [stuckStep_fire stuck now v hok hem hcond hgap]
          exact ⟨fun _ => ⟨hem, hcond.1, hcond.2, hgap⟩, fun _ => rfl⟩
        · rw [stuckStep_hold_gap stuck now v hok hem hcond hgap]
          constructor
          · intro h
            cases h
          · intro h
            exact absurd h.2.2.2 hgap
      · rw [stuckStep_hold_cond stuck now v hok hem hcond]
        constructor
        · intro h
          cases h
        · intro h
          exact absurd ⟨h.2.1, h.2.2.1⟩ hcond
  refine ⟨hiff, ?_, ?_⟩
  · intro htrig
    obtain ⟨hem, hs, hw, hgap⟩ := hiff.mp htrig
    rw [stuckStep_fire stuck now v hok hem ⟨hs, hw⟩ hgap]
    exact lookupKey_setKey_self stuck v.vid now
  · intro t hlook htrig
    obtain ⟨_, _, _, hgap⟩ := hiff.mp htrig
    rw [hlook] at hgap
    exact hgap

/-- C9 witness: car "C1" last handled at time 0, now stalled at time 100
with speed 0 and waiting time 130: the trigger condition holds, fires,
records time 100, and the previous handling was 100 − 0 ≥ 60 ago. -/
theorem C9_stuck_trigger_witness :
    ((stuckStep [(("C1"), 0)] 100 ⟨("C1"), ("car"), 0, 130, none⟩).2 = true) ∧
    (lookupKey (stuckStep [(("C1"), 0)] 100
        ⟨("C1"), ("car"), 0, 130, none⟩).1 ("C1") = some 100) ∧
    ((100 : ℚ) - 0 ≥ 60) := by
  have h := C9_stuck_trigger_iff [(("C1"), 0)] 100 ⟨("C1"), ("car"), 0, 130, none⟩ rfl
  have htrig : (stuckStep [(("C1"), 0)] 100 ⟨("C1"), ("car"), 0, 130, none⟩).2 = true := by
    apply h.1.mpr
    refine ⟨by decide, by norm_num, by norm_num, ?_⟩
    norm_num [lookupKey]
  exact ⟨htrig, h.2.1 htrig, h.2.2 0 rfl htrig⟩

/-! ## Claim C10 -/

theorem erasePhase_cons (k : String) (i : PreemptionInfo)
    (rest : List (String × PreemptionInfo)) :
    erasePhase ((k, i) :: rest) = (k, { i with phase := 0 }) :: erasePhase rest := rfl

theorem lookup_erasePhase (table : List (String × PreemptionInfo)) (t : String) :
    lookupKey (erasePhase table) t =
      (lookupKey table t).map (fun i => { i with phase := 0 }) := by
  induction table with
  | nil => rfl
  | cons p rest ih =>
      obtain ⟨k, i⟩ := p
      rw [erasePhase_cons, lookupKey, lookupKey]
      by_cases hk : k = t
      · rw [if_pos hk, if_pos hk]
        rfl
      · rw [if_neg hk, if_neg hk, ih]

theorem updatePassed_erase (env : ReleaseEnv) (tls : String)
    (info : PreemptionInfo) :
    updatePassed env tls { info with phase := 0 } =
      { updatePassed env tls info with phase := 0 } := by
  obtain ⟨pr, ph, vid, prio, tm, ps⟩ := info
  unfold updatePassed
  dsimp only
  split_ifs <;> rfl

theorem releaseDue_erase (env : ReleaseEnv) (k : String) (i : PreemptionInfo) :
    releaseDue env (k, { i with phase := 0 }) = releaseDue env (k, i) := by
  obtain ⟨pr, ph, vid, prio, tm, ps⟩ := i
  rfl

theorem releaseUpdated_erase (table : List (String × PreemptionInfo))
    (env : ReleaseEnv) :
    releaseUpdated (erasePhase table) env = erasePhase (releaseUpdated table env) := by
  induction table with
  | nil => rfl
  | cons p rest ih =>
      obtain ⟨k, i⟩ := p
      rw [erasePhase_cons]
      show (k, updatePassed env k { i with phase := 0 }) ::
          releaseUpdated (erasePhase rest) env =
        erasePhase ((k, updatePassed env k i) :: releaseUpdated rest env)
      rw [erasePhase_cons, updatePassed_erase, ih]

theorem filter_erasePhase (l : List (String × PreemptionInfo))
    (q : String × PreemptionInfo → Bool)
    (hq : ∀ (k : String) (i : PreemptionInfo),
      q (k, { i with phase := 0 }) = q (k, i)) :
    (erasePhase l).filter q = erasePhase (l.filter q) := by
  induction l with
  | nil => rfl
  | cons p rest ih =>
      obtain ⟨k, i⟩ := p
      rw [erasePhase_cons, List.filter_cons, List.filter_cons, hq k i]
      by_cases hqi : q (k, i) = true
      · rw [if_pos hqi, if_pos hqi, erasePhase_cons, ih]
      · rw [if_neg hqi, if_neg hqi, ih]

theorem cmds_map_erase (l : List (String × PreemptionInfo)) :
    (erasePhase l).map (fun p => TlsCommand.setProgram p.1 p.2.program) =
      l.map (fun p => TlsCommand.setProgram p.1 p.2.program) := by
  induction l with
  | nil => rfl
  | cons p rest ih =>
      obtain ⟨k, i⟩ := p
      rw [erasePhase_cons, List.map_cons, List.map_cons, ih]

theorem release_erasePhase (table : List (String × PreemptionInfo))
    (renv : ReleaseEnv) :
    (check_signal_release (erasePhase table) renv).2 =
      (check_signal_release table renv).2 ∧
    (check_signal_release (erasePhase table) renv).1 =
      erasePhase ((check_signal_release table renv).1) := by
  unfold check_signal_release
  constructor
  · show ((releaseUpdated (erasePhase table) renv).filter
        (fun p => releaseDue renv p)).map
        (fun p => TlsCommand.setProgram p.1 p.2.program) = _
    rw [releaseUpdated_erase,
      filter_erasePhase _ _ (fun k i => releaseDue_erase renv k i),
      cmds_map_erase]
  · show (releaseUpdated (erasePhase table) renv).filter
        (fun p => !(releaseDue renv p)) = _
    rw [releaseUpdated_erase,
      filter_erasePhase _ _ (fun k i => by rw [releaseDue_erase renv k i])]

theorem preempt_signal_erasePhase (table : List (String × PreemptionInfo))
    (tls : String) (veh : Candidate) (env : SimSignalEnv) (now : ℚ) :
    (preempt_signal (erasePhase table) tls veh env now).setState =
      (preempt_signal table tls veh env now).setState ∧
    (preempt_signal (erasePhase table) tls veh env now).events =
      (preempt_signal table tls veh env now).events := by
  cases hl : lookupKey table tls with
  | none =>
      have hl2 : lookupKey (erasePhase table) tls = none := by
        rw [lookup_erasePhase, hl]
        rfl
      unfold preempt_signal
      rw [recordStep_create table tls veh env now hl,
        recordStep_create (erasePhase table) tls veh env now hl2]
      exact ⟨rfl, rfl⟩
  | some old =>
      have hl2 : lookupKey (erasePhase table) tls = some { old with phase := 0 } := by
        rw [lookup_erasePhase, hl]
        rfl
      by_cases hp : veh.priority < old.priority
      · unfold preempt_signal
        rw [recordStep_upgrade table tls veh env now old hl hp,
          recordStep_upgrade (erasePhase table) tls veh env now
            { old with phase := 0 } hl2 hp]
        exact ⟨rfl, rfl⟩
      · by_cases hv : veh.vid = old.vehicle_id
        · unfold preempt_signal
          rw [recordStep_refresh table tls veh env now old hl hp hv,
            recordStep_refresh (erasePhase table) tls veh env now
              { old with phase := 0 } hl2 hp hv]
          exact ⟨rfl, rfl⟩
        · unfold preempt_signal
          rw [recordStep_ignore table tls veh env now old hl hp hv,
            recordStep_ignore (erasePhase table) tls veh env now
              { old with phase := 0 } hl2 hp hv]
          exact ⟨rfl, rfl⟩

/-- C10: releasing a preemption restores only the intersection's program
id — every command the release pass emits is a `setProgram`, never a
phase write; the saved phase is never read: scrubbing the phase field of
every record changes neither the release pass's commands nor (up to the
same scrubbing) its resulting table, nor the state string or events of a
preempt step; and the phase saved at creation is never overwritten while
the record lives (upgrades and refreshes preserve it). -/
theorem C10_release_restores_only_program
    (table : List (String × PreemptionInfo)) (tls : String) (veh : Candidate)
    (env : SimSignalEnv) (renv : ReleaseEnv) (now : ℚ) :
    (∀ c ∈ (check_signal_release table renv).2,
      ∃ t p, c = TlsCommand.setProgram t p) ∧
    ((check_signal_release (erasePhase table) renv).2 =
        (check_signal_release table renv).2 ∧
      (check_signal_release (erasePhase table) renv).1 =
        erasePhase ((check_signal_release table renv).1)) ∧
    ((preempt_signal (erasePhase table) tls veh env now).setState =
        (preempt_signal table tls veh env now).setState ∧
      (preempt_signal (erasePhase table) tls veh env now).events =
        (preempt_signal table tls veh env now).events) ∧
    (∀ t info info2, lookupKey table t = some info →
      lookupKey (preempt_signal table tls veh env now).table t = some info2 →
      info2.phase = info.phase) := by
  refine ⟨?_, release_erasePhase table renv, preempt_signal_erasePhase table tls veh env now, ?_⟩
  · intro c hc
    unfold check_signal_release at hc
    obtain ⟨p, _, hcp⟩ := List.mem_map.mp hc
    exact ⟨p.1, p.2.program, hcp.symm⟩
  · intro t info info2 hl hl2
    cases hstep : preemptRecordStep table tls veh env now with
    | none =>
        rw [preempt_signal_table_none table tls veh env now hstep] at hl2
        rw [hl] at hl2
        injection hl2 with h5
        rw [← h5]
    | some p =>
        obtain ⟨t2, evs⟩ := p
        rw [preempt_signal_table_eq table tls veh env now t2 evs hstep] at hl2
        exact (recordStep_preserves table tls veh env now t2 evs hstep
          t info hl info2 hl2).2.1

/-- C10 witness: with a preempted record at "X" holding phase 3, the
release pass of a tick at time 10 emits only a `setProgram`; scrubbing
the phase changes no observable output; and an ignored lower-priority
preempt attempt leaves the stored phase 3 intact. -/
theorem C10_release_restores_witness :
    (∀ c ∈ (check_signal_release [(("X"), ⟨("P7"), 3, ("V"), 1, 0, true⟩)]
        ⟨10, [], fun _ => (0, 0), fun _ => (0, 0)⟩).2,
      ∃ t p, c = TlsCommand.setProgram t p) ∧
    (check_signal_release
        (erasePhase [(("X"), ⟨("P7"), 3, ("V"), 1, 0, true⟩)])
        ⟨10, [], fun _ => (0, 0), fun _ => (0, 0)⟩).2 =
      (check_signal_release [(("X"), ⟨("P7"), 3, ("V"), 1, 0, true⟩)]
        ⟨10, [], fun _ => (0, 0), fun _ => (0, 0)⟩).2 ∧
    (∀ info2 : PreemptionInfo,
      lookupKey (preempt_signal [(("X"), ⟨("P7"), 3, ("V"), 1, 0, true⟩)]
          ("X") ⟨("W"), ("firetruck"), 2, ("E"), 10⟩
          ⟨("P7"), 0, [[⟨("E"), 0⟩]], [[("rr")]]⟩ 7).table ("X") = some info2 →
      info2.phase = 3) := by
  have h := C10_release_restores_only_program
    [(("X"), ⟨("P7"), 3, ("V"), 1, 0, true⟩)]
    ("X") ⟨("W"), ("firetruck"), 2, ("E"), 10⟩
    ⟨("P7"), 0, [[⟨("E"), 0⟩]], [[("rr")]]⟩
    ⟨10, [], fun _ => (0, 0), fun _ => (0, 0)⟩ 7
  refine ⟨h.1, h.2.1.1, ?_⟩
  intro info2 hinfo2
  exact h.2.2.2 ("X") ⟨("P7"), 3, ("V"), 1, 0, true⟩ info2 rfl hinfo2

end SumoTM
